import Mathlib

/-!
Verification development for the ConnectWith point-to-point file-transfer
protocol.  The C++ sources are shallowly embedded: bytes are natural
numbers below 256, byte buffers are lists, fixed-width unsigned integers
are naturals reduced modulo 2^w at the points where the C++ types truncate,
fallible operations return Except, and the filesystem / OS surface is
abstracted by an explicit environment record.
-/

namespace CW

/-! ## Binary primitives (src/cw/binary.h, cw::binary)

writeBigEndian appends the sizeof(T) big-endian bytes of a value to a
growing buffer; readBigEndian reads them back.  A w-byte write of n stores
n modulo 2^(8w), which is exactly what storing into a uint of width 8w
does in the C++ source. -/

/-- Big-endian byte encoding of n, w bytes, most significant first. -/
def beBytes : Nat → Nat → List Nat
  | 0, _ => []
  | w + 1, n => beBytes w (n / 256) ++ [n % 256]

/-- cw::binary::readBigEndian of width w from the front of a buffer. -/
def readBE (w : Nat) (bs : List Nat) : Nat :=
  (bs.take w).foldl (fun a b => 256 * a + b) 0

theorem length_beBytes (w n : Nat) : (beBytes w n).length = w := by
  induction w generalizing n with
  | zero => rfl
  | succ w ih => simp [beBytes, ih]

theorem beBytes_lt (w n : Nat) : ∀ b ∈ beBytes w n, b < 256 := by
  induction w generalizing n with
  | zero => intro b hb; simp [beBytes] at hb
  | succ w ih =>
    intro b hb
    simp only [beBytes, List.mem_append, List.mem_singleton] at hb
    rcases hb with hb | hb
    · exact ih _ b hb
    · subst hb; exact Nat.mod_lt _ (by norm_num)

theorem readBE_beBytes (w n : Nat) (rest : List Nat) (h : n < 256 ^ w) :
    readBE w (beBytes w n ++ rest) = n := by
  have htake : (beBytes w n ++ rest).take w = beBytes w n :=
    List.take_left' (length_beBytes w n)
  unfold readBE
  rw [htake]
  clear htake
  induction w generalizing n with
  | zero =>
    interval_cases n
    rfl
  | succ w ih =>
    have hdiv : n / 256 < 256 ^ w := by
      rw [Nat.div_lt_iff_lt_mul (by norm_num : (0:Nat) < 256)]
      calc n < 256 ^ (w + 1) := h
        _ = 256 ^ w * 256 := by ring
    simp only [beBytes, List.foldl_append, List.foldl_cons, List.foldl_nil]
    rw [ih _ hdiv]
    omega

theorem drop_beBytes_append (w n : Nat) (rest : List Nat) :
    (beBytes w n ++ rest).drop w = rest :=
  List.drop_left' (length_beBytes w n)

/-! ## Message codec (src/src/cw/endian.h, second unit: cw::packet)

Six packet kinds with payloadSize / serialize / deserialize.  The C++
serialize appends onto a caller-supplied vector and throws before writing
anything when a limit is violated; this is modelled by an Except whose
error value carries the buffer exactly as it stood at the throw site.
Deserialize takes the payload slice of a frame and throws on malformed
input; the distinct throw sites are modelled by a DecodeError enum
matching the spec's taxonomy (TooSmall / TooLong / Truncated). -/

/-- Protocol limit kMaxStringLength (4096 bytes). -/
def kMaxStringLength : Nat := 4096

/-- Protocol limit kMaxChunkSize (10 MiB). -/
def kMaxChunkSize : Nat := 10 * 1024 * 1024

inductive SerializeError where
  | emptyName
  | tooLong
  deriving DecidableEq, Repr

inductive DecodeError where
  | tooSmall
  | tooLong
  | truncated
  deriving DecidableEq, Repr

/-- cw::packet::Handshake. -/
structure Handshake where
  protocolVersion : Nat := 1
  capabilities : Nat := 0
  deriving DecidableEq, Repr

def Handshake.payloadSize (_ : Handshake) : Nat := 2 + 4

def Handshake.serializeTo (p : Handshake) (out : List Nat) :
    Except (SerializeError × List Nat) (List Nat) :=
  .ok (out ++ beBytes 2 p.protocolVersion ++ beBytes 4 p.capabilities)

def Handshake.deserialize (payload : List Nat) : Except DecodeError Handshake :=
  if payload.length < 2 + 4 then .error .tooSmall
  else .ok { protocolVersion := readBE 2 payload
             capabilities := readBE 4 (payload.drop 2) }

/-- cw::packet::Ack. -/
structure Ack where
  offset : Nat := 0
  deriving DecidableEq, Repr

def Ack.payloadSize (_ : Ack) : Nat := 8

def Ack.serializeTo (p : Ack) (out : List Nat) :
    Except (SerializeError × List Nat) (List Nat) :=
  .ok (out ++ beBytes 8 p.offset)

def Ack.deserialize (payload : List Nat) : Except DecodeError Ack :=
  if payload.length < 8 then .error .tooSmall
  else .ok { offset := readBE 8 payload }

/-- cw::packet::Error (code + length-prefixed message bytes). -/
structure ErrorPkt where
  code : Nat := 0
  message : List Nat := []
  deriving DecidableEq, Repr

def ErrorPkt.payloadSize (p : ErrorPkt) : Nat := 2 + 4 + p.message.length

def ErrorPkt.serializeTo (p : ErrorPkt) (out : List Nat) :
    Except (SerializeError × List Nat) (List Nat) :=
  if p.message.length > kMaxStringLength then .error (.tooLong, out)
  else .ok (out ++ beBytes 2 p.code ++ beBytes 4 p.message.length ++ p.message)

def ErrorPkt.deserialize (payload : List Nat) : Except DecodeError ErrorPkt :=
  if payload.length < 2 + 4 then .error .tooSmall
  else
    let msgLen := readBE 4 (payload.drop 2)
    if msgLen > kMaxStringLength then .error .tooLong
    else if payload.length - 6 < msgLen then .error .truncated
    else .ok { code := readBE 2 payload, message := (payload.drop 6).take msgLen }

/-- cw::packet::FileInfo (size + length-prefixed name bytes). -/
structure FileInfo where
  fileSize : Nat := 0
  fileName : List Nat := []
  deriving DecidableEq, Repr

def FileInfo.payloadSize (p : FileInfo) : Nat := 8 + 4 + p.fileName.length

def FileInfo.serializeTo (p : FileInfo) (out : List Nat) :
    Except (SerializeError × List Nat) (List Nat) :=
  if p.fileName.length = 0 then .error (.emptyName, out)
  else if p.fileName.length > kMaxStringLength then .error (.tooLong, out)
  else .ok (out ++ beBytes 8 p.fileSize ++ beBytes 4 p.fileName.length ++ p.fileName)

def FileInfo.deserialize (payload : List Nat) : Except DecodeError FileInfo :=
  if payload.length < 8 + 4 then .error .tooSmall
  else
    let nameLen := readBE 4 (payload.drop 8)
    if nameLen > kMaxStringLength then .error .tooLong
    else if payload.length - 12 < nameLen then .error .truncated
    else .ok { fileSize := readBE 8 payload, fileName := (payload.drop 12).take nameLen }

/-- cw::packet::FileChunk (offset + length-prefixed data bytes). -/
structure FileChunk where
  offset : Nat := 0
  data : List Nat := []
  deriving DecidableEq, Repr

def FileChunk.payloadSize (p : FileChunk) : Nat := 8 + 4 + p.data.length

def FileChunk.serializeTo (p : FileChunk) (out : List Nat) :
    Except (SerializeError × List Nat) (List Nat) :=
  if p.data.length > kMaxChunkSize then .error (.tooLong, out)
  else if p.data.length > 2 ^ 32 - 1 then .error (.tooLong, out)
  else .ok (out ++ beBytes 8 p.offset ++ beBytes 4 p.data.length ++ p.data)

def FileChunk.deserialize (payload : List Nat) : Except DecodeError FileChunk :=
  if payload.length < 8 + 4 then .error .tooSmall
  else
    let dataLen := readBE 4 (payload.drop 8)
    if dataLen > kMaxChunkSize then .error .tooLong
    else if payload.length - 12 < dataLen then .error .truncated
    else .ok { offset := readBE 8 payload, data := (payload.drop 12).take dataLen }

/-- cw::packet::FileDone. -/
structure FileDone where
  fileSize : Nat := 0
  deriving DecidableEq, Repr

def FileDone.payloadSize (_ : FileDone) : Nat := 8

def FileDone.serializeTo (p : FileDone) (out : List Nat) :
    Except (SerializeError × List Nat) (List Nat) :=
  .ok (out ++ beBytes 8 p.fileSize)

def FileDone.deserialize (payload : List Nat) : Except DecodeError FileDone :=
  if payload.length < 8 then .error .tooSmall
  else .ok { fileSize := readBE 8 payload }

/-! ## Packet kinds and frame codec
(src/src/cw/protocol/packet/packet_type.h and the frame unit of
src/src/cw/file/transfer_orchestrator.h: cw::packet::buildFrame,
tryParseFrame, parseFrame)

A frame's type field travels as a raw u16; the model keeps the numeric
code, with the enum assignments of PacketType as named constants. -/

def handshakeCode : Nat := 0
def fileInfoCode : Nat := 1
def fileChunkCode : Nat := 2
def fileDoneCode : Nat := 3
def errorCode : Nat := 4
def ackCode : Nat := 5

/-- One of the six FrameBuildable packet kinds, for the generic buildFrame. -/
inductive Packet where
  | handshake (p : Handshake)
  | ack (p : Ack)
  | error (p : ErrorPkt)
  | fileInfo (p : FileInfo)
  | fileChunk (p : FileChunk)
  | fileDone (p : FileDone)
  deriving DecidableEq, Repr

def Packet.payloadSize : Packet → Nat
  | .handshake p => p.payloadSize
  | .ack p => p.payloadSize
  | .error p => p.payloadSize
  | .fileInfo p => p.payloadSize
  | .fileChunk p => p.payloadSize
  | .fileDone p => p.payloadSize

/-- The static P::type code written into the frame header. -/
def Packet.typeCode : Packet → Nat
  | .handshake _ => handshakeCode
  | .ack _ => ackCode
  | .error _ => errorCode
  | .fileInfo _ => fileInfoCode
  | .fileChunk _ => fileChunkCode
  | .fileDone _ => fileDoneCode

def Packet.serializeTo : Packet → List Nat → Except (SerializeError × List Nat) (List Nat)
  | .handshake p, out => p.serializeTo out
  | .ack p, out => p.serializeTo out
  | .error p, out => p.serializeTo out
  | .fileInfo p, out => p.serializeTo out
  | .fileChunk p, out => p.serializeTo out
  | .fileDone p, out => p.serializeTo out

/-- A packet whose fields fit their wire widths and protocol limits
(the values representable by the C++ field types and accepted by the
serializers). -/
def Packet.valid : Packet → Prop
  | .handshake p => p.protocolVersion < 2 ^ 16 ∧ p.capabilities < 2 ^ 32
  | .ack p => p.offset < 2 ^ 64
  | .error p => p.code < 2 ^ 16 ∧ p.message.length ≤ kMaxStringLength
  | .fileInfo p => p.fileSize < 2 ^ 64 ∧ 1 ≤ p.fileName.length ∧
      p.fileName.length ≤ kMaxStringLength
  | .fileChunk p => p.offset < 2 ^ 64 ∧ p.data.length ≤ kMaxChunkSize
  | .fileDone p => p.fileSize < 2 ^ 64

/-- Frame header: 8-byte length + 2-byte type. -/
def kFrameHeaderSize : Nat := 10

/-- Maximum accepted payload length: 1 GiB. -/
def kMaxPayloadSize : Nat := 2 ^ 30

/-- cw::packet::buildFrame: write length (u64 BE), write kind (u16 BE),
then let the packet serialize itself onto the same buffer. -/
def buildFrame (p : Packet) : Except (SerializeError × List Nat) (List Nat) :=
  p.serializeTo (beBytes 8 p.payloadSize ++ beBytes 2 p.typeCode)

/-- Zero-copy view of one parsed frame (payload slice + raw type code). -/
structure ParsedFrame where
  payload : List Nat
  type : Nat
  deriving DecidableEq, Repr

def ParsedFrame.size (f : ParsedFrame) : Nat := f.payload.length

def ParsedFrame.totalSize (f : ParsedFrame) : Nat := kFrameHeaderSize + f.payload.length

/-- cw::packet::tryParseFrame (non-throwing read-loop primitive); the
payloadLen local of the source is inlined as readBE 8 buffer. -/
def tryParseFrame (buffer : List Nat) : Option ParsedFrame :=
  if buffer.length < kFrameHeaderSize then none
  else if readBE 8 buffer > kMaxPayloadSize then none
  else if buffer.length < kFrameHeaderSize + readBE 8 buffer then none
  else some { payload := (buffer.drop kFrameHeaderSize).take (readBE 8 buffer)
              type := readBE 2 (buffer.drop 8) }

inductive FrameError where
  | incompleteHeader
  | payloadTooLarge
  | incompleteBody
  deriving DecidableEq, Repr

/-- cw::packet::parseFrame (throwing variant distinguishing failures). -/
def parseFrame (buffer : List Nat) : Except FrameError ParsedFrame :=
  if buffer.length < kFrameHeaderSize then .error .incompleteHeader
  else if readBE 8 buffer > kMaxPayloadSize then .error .payloadTooLarge
  else
    match tryParseFrame buffer with
    | some f => .ok f
    | none => .error .incompleteBody

/-! ## Connection engine extract loop
(src/src/cw/network/connection.h, both Connection variants; their parseFrame
comes from the pointer-based Frame.h unit which throws Incomplete Frame
Header / Incomplete Frame Body and has no payload-size cap)

Connection::processBuffer repeatedly parses the front of the incoming
buffer inside one try block; a std::runtime_error thrown either by
parseFrame or by a deserializer inside dispatchPacket is caught by the
same handler, which just breaks out of the loop.  The model returns the
final incoming buffer together with the packets dispatched in this pass
(the session surviving is represented by the function returning a buffer
rather than propagating an error).  The two-argument deserializers used
by dispatchPacket perform byte-for-byte the same checks as the span
versions above, so those are reused on the payload slice. -/

inductive LegacyFrameError where
  | incompleteHeader
  | incompleteBody
  deriving DecidableEq, Repr

/-- Pointer-based parseFrame of the legacy Frame.h: full-header and
full-body checks only (no maximum-length check). -/
def legacyParseFrame (buffer : List Nat) : Except LegacyFrameError ParsedFrame :=
  if buffer.length < kFrameHeaderSize then .error .incompleteHeader
  else
    let payloadLen := readBE 8 buffer
    if buffer.length - kFrameHeaderSize < payloadLen then .error .incompleteBody
    else .ok { payload := (buffer.drop kFrameHeaderSize).take payloadLen
               type := readBE 2 (buffer.drop 8) }

/-- One packet decoded and logged by Connection::dispatchPacket. -/
inductive DispatchEvent where
  | ack (p : Ack)
  | fileInfo (p : FileInfo)
  | error (p : ErrorPkt)
  | fileChunk (p : FileChunk)
  | fileDone (p : FileDone)
  | unknown (code : Nat)
  deriving DecidableEq, Repr

/-- Connection::dispatchPacket: deserialize the view by type and log it;
deserializers throw on malformed payloads. -/
def dispatchPacket (view : ParsedFrame) : Except DecodeError DispatchEvent :=
  if view.type = ackCode then
    (Ack.deserialize view.payload).map .ack
  else if view.type = fileInfoCode then
    (FileInfo.deserialize view.payload).map .fileInfo
  else if view.type = errorCode then
    (ErrorPkt.deserialize view.payload).map .error
  else if view.type = fileChunkCode then
    (FileChunk.deserialize view.payload).map .fileChunk
  else if view.type = fileDoneCode then
    (FileDone.deserialize view.payload).map .fileDone
  else
    .ok (.unknown view.type)

/-- The while loop of Connection::processBuffer.  Fuel only bounds the
iteration count; every successful round consumes at least the ten header
bytes, so buffer length is always sufficient fuel. -/
def processBufferAux : Nat → List Nat → List DispatchEvent → List Nat × List DispatchEvent
  | 0, buf, evs => (buf, evs)
  | fuel + 1, buf, evs =>
    match legacyParseFrame buf with
    | .error _ => (buf, evs)
    | .ok view =>
      match dispatchPacket view with
      | .error _ => (buf, evs)
      | .ok ev =>
        let rest := buf.drop (kFrameHeaderSize + view.size)
        if rest.isEmpty then (rest, evs ++ [ev])
        else processBufferAux fuel rest (evs ++ [ev])

/-- Connection::processBuffer over the incoming buffer. -/
def processBuffer (buf : List Nat) : List Nat × List DispatchEvent :=
  processBufferAux buf.length buf []

/-! ## Filesystem paths and the path validator
(src/src/cw/file/path_validator.h, cw::file::isPathSafe)

POSIX path model: a path is an is-absolute flag plus a list of components,
each component a byte list ("." is [46], ".." is [46,46]).  Multi-slash
runs, root names and trailing-separator components are outside the model
(inputs are taken without trailing slashes).  The filesystem itself is
abstracted by FsEnv: a symlink-free world whose process current directory
is env.cwd (absolute, already in normal form), so std::filesystem::
canonical of an existing directory is the lexical normal form of its
absolutized path, and the only canonicalization failure modelled is the
base directory not existing.  std::filesystem::absolute(p) is
current_path()/p, which the model mirrors exactly. -/

/-- The single-dot path component. -/
def dotC : List Nat := [46]

/-- The dot-dot path component. -/
def dotdotC : List Nat := [46, 46]

structure FsPath where
  absolute : Bool
  comps : List (List Nat)
  deriving DecidableEq, Repr

/-- std::filesystem::path::operator/ (POSIX): an absolute right-hand side
replaces the left, otherwise components concatenate. -/
def pathAppend (p q : FsPath) : FsPath :=
  if q.absolute then q else ⟨p.absolute, p.comps ++ q.comps⟩

/-- std::filesystem::path built from the byte string of a wire file name:
split on forward slashes, absolute when the name starts with a slash. -/
def parsePath (bytes : List Nat) : FsPath :=
  { absolute := bytes.head? = some 47
    comps := (bytes.splitOn 47).filter (fun c => ¬c.isEmpty) }

/-- path::has_parent_path in the model (root counts as a parent). -/
def FsPath.hasParent (p : FsPath) : Bool :=
  p.absolute || decide (2 ≤ p.comps.length)

/-- Work list for lexically_normal: the processed stack is kept reversed
(most recent component first). -/
def normFold (absolute : Bool) : List (List Nat) → List (List Nat) → List (List Nat)
  | stack, [] => stack
  | stack, c :: rest =>
    if c = dotC then normFold absolute stack rest
    else if c = dotdotC then
      match stack with
      | [] =>
        if absolute then normFold absolute [] rest
        else normFold absolute [dotdotC] rest
      | top :: stack' =>
        if top = dotdotC then normFold absolute (dotdotC :: top :: stack') rest
        else normFold absolute stack' rest
    else normFold absolute (c :: stack) rest

/-- path::lexically_normal: drop dot components, cancel name/dot-dot
pairs, drop dot-dots at an absolute root, and render an emptied relative
path as the dot path. -/
def lexicallyNormal (p : FsPath) : FsPath :=
  let c := (normFold p.absolute [] p.comps).reverse
  if ¬p.absolute ∧ c = [] then ⟨false, [dotC]⟩ else ⟨p.absolute, c⟩

/-- Longest-common-prefix split used by lexically_relative: returns both
suffixes starting at the first mismatched element. -/
def dropCommon : List (List Nat) → List (List Nat) → List (List Nat) × List (List Nat)
  | [], bs => ([], bs)
  | a :: as, [] => (a :: as, [])
  | a :: as, b :: bs => if a = b then dropCommon as bs else (a :: as, b :: bs)

/-- The tail of path::lexically_relative once the mismatch suffixes pr
(of this path) and br (of the base) are known. -/
def lexRelCore (pr br : List (List Nat)) : FsPath :=
  if pr = [] ∧ br = [] then ⟨false, [dotC]⟩
  else
    let nPlus := (br.filter (fun c => c ≠ dotC ∧ c ≠ dotdotC)).length
    let nMinus := (br.filter (fun c => c = dotdotC)).length
    if nPlus < nMinus then ⟨false, []⟩
    else if nPlus = nMinus ∧ pr = [] then ⟨false, [dotC]⟩
    else ⟨false, List.replicate (nPlus - nMinus) dotdotC ++ pr⟩

/-- path::lexically_relative (POSIX: the only root information is the
is-absolute flag, whose mismatch yields the empty path). -/
def lexicallyRelative (p base : FsPath) : FsPath :=
  if p.absolute ≠ base.absolute then ⟨false, []⟩
  else
    let (pr, br) := dropCommon p.comps base.comps
    lexRelCore pr br

/-- Abstract OS surface for the path/file code: process current
directory, whether the base directory exists (canonical fails otherwise),
and whether directory creation / file open succeed. -/
structure FsEnv where
  cwd : FsPath
  baseExists : Bool
  createDirsOk : Bool := true
  openOk : Bool := true

/-- std::filesystem::absolute: current_path()/p (never fails here). -/
def fsAbsolute (env : FsEnv) (p : FsPath) : FsPath :=
  pathAppend env.cwd p

/-- std::filesystem::canonical in the symlink-free model: defined only
when the directory exists, and then the lexical normal form of the
absolutized path. -/
def fsCanonical (env : FsEnv) (p : FsPath) : Option FsPath :=
  if env.baseExists then some (lexicallyNormal (fsAbsolute env p)) else none

/-- cw::file::isPathSafe (src/src/cw/file/path_validator.h): canonicalize
the base, absolutize the request, lexically normalize, and accept only
when the lexical relative form is non-empty, does not start with dot-dot,
and is not absolute. -/
def isPathSafe (requestedPath baseDir : FsPath) (env : FsEnv) : Bool :=
  match fsCanonical env baseDir with
  | none => false
  | some canonicalBase =>
    let absoluteRequested := fsAbsolute env requestedPath
    let normalized := lexicallyNormal absoluteRequested
    let relative := lexicallyRelative normalized canonicalBase
    if relative.comps = [] then false
    else if relative.comps.head? = some dotdotC then false
    else if relative.absolute then false
    else true

/-- The validator as the spec words it (for comparison with isPathSafe):
step 2 of the spec algorithm resolves requested_path to an absolute path
relative to base_dir, i.e. against the canonical base, where the code
uses the process current directory instead. -/
def isPathSafeSpec (requestedPath baseDir : FsPath) (env : FsEnv) : Bool :=
  match fsCanonical env baseDir with
  | none => false
  | some canonicalBase =>
    let resolved := pathAppend canonicalBase requestedPath
    let normalized := lexicallyNormal resolved
    let relative := lexicallyRelative normalized canonicalBase
    if relative.comps = [] then false
    else if relative.comps.head? = some dotdotC then false
    else if relative.absolute then false
    else true

/-! ## File writer (cw::file::FileWriter, and src/src/cw/file/i_file_writer.h)

The writer's observable state: base directory, whether a file handle is
open, the expected size remembered by beginFile and the running
bytes_written counter.  Disk contents are outside the model; ofstream
write/seekp report no errors in the source, so writeChunk succeeds
whenever a file is open.  Operations that mutate the writer return the
new writer state alongside their result, mirroring the in-place C++
mutation (beginFile closes first, so its state on error is the closed
writer). -/

inductive FileWriterError where
  | pathTraversal
  | createDirFailed
  | openFailed
  | notOpen
  deriving DecidableEq, Repr

structure FileWriter where
  baseDir : FsPath
  isOpen : Bool := false
  expectedSize : Nat := 0
  bytesWritten : Nat := 0
  deriving DecidableEq, Repr

/-- FileWriter::close (idempotent, keeps the counters). -/
def FileWriter.close (w : FileWriter) : FileWriter :=
  { w with isOpen := false }

/-- FileWriter::beginFile: close any previous file, form
base/relativePath, validate with isPathSafe, create parent directories,
open truncating, and reset bytes_written. -/
def FileWriter.beginFile (env : FsEnv) (w : FileWriter) (relativePath : List Nat)
    (expectedSize : Nat) : FileWriter × Option FileWriterError :=
  let w := w.close
  let targetPath := pathAppend w.baseDir (parsePath relativePath)
  if ¬isPathSafe targetPath w.baseDir env then
    (w, some .pathTraversal)
  else if targetPath.hasParent ∧ ¬env.createDirsOk then
    (w, some .createDirFailed)
  else if ¬env.openOk then
    (w, some .openFailed)
  else
    ({ w with isOpen := true, expectedSize := expectedSize, bytesWritten := 0 }, none)

/-- FileWriter::writeChunk: NotOpen when no file is open; otherwise seek,
write, and add the chunk length to the running bytes_written sum.  The
m_bytesWritten counter is a uint64_t, so the accumulation wraps modulo
2^64. -/
def FileWriter.writeChunk (w : FileWriter) (_offset : Nat) (data : List Nat) :
    FileWriter × Option FileWriterError :=
  if ¬w.isOpen then (w, some .notOpen)
  else ({ w with bytesWritten := (w.bytesWritten + data.length) % 2 ^ 64 }, none)

/-- FileWriter::finishFile: compare bytes_written against the declared
size, then close regardless of the verdict. -/
def FileWriter.finishFile (w : FileWriter) (finalSize : Nat) : FileWriter × Bool :=
  (w.close, w.bytesWritten == finalSize)

/-! ## Receiver state machine (src/src/cw/network/file_receiver.h)

FileReceiver::onPacket dispatches a parsed frame by type.  Its observable
state is the sticky rejected flag plus the writer it drives; the optional
ack callback is modelled by a has-callback flag and the list of Ack
packets passed to the callback during the event.  Writer interactions are
also reported as a trace of WriterEvent entries (call with its result) so
that claims about which writer methods ran can be stated.  A DecodeError
escaping onPacket models the deserializer exception propagating to the
connection engine's containment layer. -/

structure ReceiverState where
  rejected : Bool := false
  hasAckCallback : Bool := true
  deriving DecidableEq, Repr

inductive WriterEvent where
  | beganFile (path : List Nat) (size : Nat) (result : Option FileWriterError)
  | wroteChunk (offset : Nat) (data : List Nat) (result : Option FileWriterError)
  | finishedFile (size : Nat) (ok : Bool)
  deriving DecidableEq, Repr

structure ReceiverStep where
  rcv : ReceiverState
  writer : FileWriter
  writerTrace : List WriterEvent
  acks : List Ack
  deriving DecidableEq, Repr

/-- FileReceiver::onPacket. -/
def FileReceiver.onPacket (env : FsEnv) (rcv : ReceiverState) (w : FileWriter)
    (frame : ParsedFrame) : Except DecodeError ReceiverStep :=
  if frame.type = handshakeCode then do
    let _ ← Handshake.deserialize frame.payload
    .ok ⟨rcv, w, [], []⟩
  else if frame.type = ackCode then do
    let _ ← Ack.deserialize frame.payload
    .ok ⟨rcv, w, [], []⟩
  else if frame.type = fileInfoCode then do
    let pkt ← FileInfo.deserialize frame.payload
    match FileWriter.beginFile env w pkt.fileName pkt.fileSize with
    | (w', some e) =>
      .ok ⟨{ rcv with rejected := true }, w',
           [.beganFile pkt.fileName pkt.fileSize (some e)], []⟩
    | (w', none) =>
      .ok ⟨{ rcv with rejected := false }, w',
           [.beganFile pkt.fileName pkt.fileSize none], []⟩
  else if frame.type = fileChunkCode then
    if rcv.rejected then .ok ⟨rcv, w, [], []⟩
    else do
      let pkt ← FileChunk.deserialize frame.payload
      let (w', r) := w.writeChunk pkt.offset pkt.data
      .ok ⟨rcv, w', [.wroteChunk pkt.offset pkt.data r], []⟩
  else if frame.type = fileDoneCode then do
    let pkt ← FileDone.deserialize frame.payload
    if rcv.rejected then .ok ⟨rcv, w, [], []⟩
    else
      let (w', valid) := w.finishFile pkt.fileSize
      .ok ⟨rcv, w', [.finishedFile pkt.fileSize valid],
           if valid ∧ rcv.hasAckCallback then [{ offset := pkt.fileSize }] else []⟩
  else if frame.type = errorCode then do
    let _ ← ErrorPkt.deserialize frame.payload
    .ok ⟨rcv, w, [], []⟩
  else
    .ok ⟨rcv, w, [], []⟩

/-! ## Theorems -/

/-- Closed form of tryParseFrame: a single guard deciding success. -/
theorem tryParseFrame_spec (B : List Nat) :
    tryParseFrame B =
      if kFrameHeaderSize ≤ B.length ∧ readBE 8 B ≤ kMaxPayloadSize ∧
          kFrameHeaderSize + readBE 8 B ≤ B.length
      then some { payload := (B.drop kFrameHeaderSize).take (readBE 8 B)
                  type := readBE 2 (B.drop 8) }
      else none := by
  unfold tryParseFrame
  by_cases h1 : B.length < kFrameHeaderSize
  · rw [if_pos h1, if_neg (by omega)]
  · rw [if_neg h1]
    by_cases h2 : readBE 8 B > kMaxPayloadSize
    · rw [if_pos h2, if_neg (by omega)]
    · rw [if_neg h2]
      by_cases h3 : B.length < kFrameHeaderSize + readBE 8 B
      · rw [if_pos h3, if_neg (by omega)]
      · rw [if_neg h3, if_pos (by omega)]

/-- Closed form of parseFrame mirroring its three throw sites. -/
theorem parseFrame_spec (B : List Nat) :
    parseFrame B =
      if B.length < kFrameHeaderSize then .error .incompleteHeader
      else if kMaxPayloadSize < readBE 8 B then .error .payloadTooLarge
      else if B.length < kFrameHeaderSize + readBE 8 B then .error .incompleteBody
      else .ok { payload := (B.drop kFrameHeaderSize).take (readBE 8 B)
                 type := readBE 2 (B.drop 8) } := by
  unfold parseFrame
  rw [tryParseFrame_spec]
  by_cases h1 : B.length < kFrameHeaderSize
  · rw [if_pos h1, if_pos h1]
  · rw [if_neg h1, if_neg h1]
    by_cases h2 : readBE 8 B > kMaxPayloadSize
    · rw [if_pos h2, if_pos (show kMaxPayloadSize < readBE 8 B by omega)]
    · rw [if_neg h2, if_neg (show ¬(kMaxPayloadSize < readBE 8 B) by omega)]
      by_cases h3 : B.length < kFrameHeaderSize + readBE 8 B
      · rw [if_neg (show ¬(kFrameHeaderSize ≤ B.length ∧ readBE 8 B ≤ kMaxPayloadSize ∧
            kFrameHeaderSize + readBE 8 B ≤ B.length) by omega), if_pos h3]
      · rw [if_pos (show kFrameHeaderSize ≤ B.length ∧ readBE 8 B ≤ kMaxPayloadSize ∧
            kFrameHeaderSize + readBE 8 B ≤ B.length by omega), if_neg h3]

theorem readBE_beBytes_self (w n : Nat) (h : n < 256 ^ w) :
    readBE w (beBytes w n) = n := by
  simpa using readBE_beBytes w n [] h

/-- C5: tryParseFrame returns a frame exactly when the buffer holds the
full 10-byte header, the declared payload length is within the 2^30
bound, and the buffer holds at least 10 + payload_length bytes, and
returns none otherwise; parseFrame applies the same logic (it succeeds on
exactly the same inputs with the same frame) but distinguishes the three
failure modes incomplete header, payload too large, and incomplete body;
on the ten bytes FF FF FF FF FF FF FF FF 00 01 tryParseFrame returns none
and parseFrame reports the too-large error. -/
theorem tryParseFrame_parseFrame_characterization :
    (∀ B : List Nat,
      (tryParseFrame B).isSome ↔
        (kFrameHeaderSize ≤ B.length ∧ readBE 8 B ≤ kMaxPayloadSize ∧
         kFrameHeaderSize + readBE 8 B ≤ B.length))
    ∧ (∀ B f, parseFrame B = .ok f ↔ tryParseFrame B = some f)
    ∧ (∀ B, parseFrame B = .error .incompleteHeader ↔ B.length < kFrameHeaderSize)
    ∧ (∀ B, parseFrame B = .error .payloadTooLarge ↔
        (kFrameHeaderSize ≤ B.length ∧ kMaxPayloadSize < readBE 8 B))
    ∧ (∀ B, parseFrame B = .error .incompleteBody ↔
        (kFrameHeaderSize ≤ B.length ∧ readBE 8 B ≤ kMaxPayloadSize ∧
         B.length < kFrameHeaderSize + readBE 8 B))
    ∧ tryParseFrame [255, 255, 255, 255, 255, 255, 255, 255, 0, 1] = none
    ∧ parseFrame [255, 255, 255, 255, 255, 255, 255, 255, 0, 1] = .error .payloadTooLarge := by
  refine ⟨?_, ?_, ?_, ?_, ?_, by rfl, by rfl⟩
  · intro B
    rw [tryParseFrame_spec]
    split_ifs with h <;> simp [h]
  · intro B f
    rw [parseFrame_spec, tryParseFrame_spec]
    split_ifs <;> first | (exfalso; omega) | simp
  · intro B
    rw [parseFrame_spec]
    split_ifs <;> simp <;> omega
  · intro B
    rw [parseFrame_spec]
    split_ifs <;> simp <;> omega
  · intro B
    rw [parseFrame_spec]
    split_ifs <;> simp <;> omega

/-- Round trip for Handshake (helper shared by several claims). -/
theorem handshake_roundtrip (p : Handshake) (hv : p.protocolVersion < 2 ^ 16)
    (hc : p.capabilities < 2 ^ 32) :
    ∃ bytes, p.serializeTo [] = .ok bytes ∧ Handshake.deserialize bytes = .ok p := by
  refine ⟨beBytes 2 p.protocolVersion ++ beBytes 4 p.capabilities,
    by simp [Handshake.serializeTo], ?_⟩
  unfold Handshake.deserialize
  rw [if_neg (by simp [length_beBytes])]
  rw [readBE_beBytes _ _ _ hv, drop_beBytes_append, readBE_beBytes_self _ _ hc]

/-- Round trip for Ack. -/
theorem ack_roundtrip (p : Ack) (hoff : p.offset < 2 ^ 64) :
    ∃ bytes, p.serializeTo [] = .ok bytes ∧ Ack.deserialize bytes = .ok p := by
  refine ⟨beBytes 8 p.offset, by simp [Ack.serializeTo], ?_⟩
  unfold Ack.deserialize
  rw [if_neg (by simp [length_beBytes])]
  rw [readBE_beBytes_self _ _ hoff]

/-- Round trip for Error packets with in-bound message length. -/
theorem errorPkt_roundtrip (p : ErrorPkt) (hcode : p.code < 2 ^ 16)
    (hlen : p.message.length ≤ kMaxStringLength) :
    ∃ bytes, p.serializeTo [] = .ok bytes ∧ ErrorPkt.deserialize bytes = .ok p := by
  refine ⟨beBytes 2 p.code ++ (beBytes 4 p.message.length ++ p.message), ?_, ?_⟩
  · unfold ErrorPkt.serializeTo
    rw [if_neg (by omega)]
    simp
  · unfold ErrorPkt.deserialize
    have hd2 : (beBytes 2 p.code ++ (beBytes 4 p.message.length ++ p.message)).drop 2 =
        beBytes 4 p.message.length ++ p.message := drop_beBytes_append _ _ _
    have hmsgLen : readBE 4 ((beBytes 2 p.code ++
        (beBytes 4 p.message.length ++ p.message)).drop 2) = p.message.length := by
      rw [hd2, readBE_beBytes _ _ _ (by unfold kMaxStringLength at hlen; omega)]
    have hLen : (beBytes 2 p.code ++
        (beBytes 4 p.message.length ++ p.message)).length = 6 + p.message.length := by
      simp [length_beBytes]
      omega
    rw [if_neg (by omega)]
    simp only [hmsgLen]
    rw [if_neg (by omega), if_neg (by omega)]
    have hd6 : (beBytes 2 p.code ++ (beBytes 4 p.message.length ++ p.message)).drop 6 =
        p.message := by
      rw [← List.append_assoc]
      exact List.drop_left' (by simp [length_beBytes])
    rw [readBE_beBytes _ _ _ hcode, hd6, List.take_length]

/-- Round trip for FileInfo with non-empty in-bound name. -/
theorem fileInfo_roundtrip (p : FileInfo) (hsize : p.fileSize < 2 ^ 64)
    (h1 : 1 ≤ p.fileName.length) (h2 : p.fileName.length ≤ kMaxStringLength) :
    ∃ bytes, p.serializeTo [] = .ok bytes ∧ FileInfo.deserialize bytes = .ok p := by
  refine ⟨beBytes 8 p.fileSize ++ (beBytes 4 p.fileName.length ++ p.fileName), ?_, ?_⟩
  · unfold FileInfo.serializeTo
    rw [if_neg (by omega), if_neg (by omega)]
    simp
  · unfold FileInfo.deserialize
    have hd8 : (beBytes 8 p.fileSize ++ (beBytes 4 p.fileName.length ++ p.fileName)).drop 8 =
        beBytes 4 p.fileName.length ++ p.fileName := drop_beBytes_append _ _ _
    have hnameLen : readBE 4 ((beBytes 8 p.fileSize ++
        (beBytes 4 p.fileName.length ++ p.fileName)).drop 8) = p.fileName.length := by
      rw [hd8, readBE_beBytes _ _ _ (by unfold kMaxStringLength at h2; omega)]
    have hLen : (beBytes 8 p.fileSize ++
        (beBytes 4 p.fileName.length ++ p.fileName)).length = 12 + p.fileName.length := by
      simp [length_beBytes]
      omega
    rw [if_neg (by omega)]
    simp only [hnameLen]
    rw [if_neg (by omega), if_neg (by omega)]
    have hd12 : (beBytes 8 p.fileSize ++
        (beBytes 4 p.fileName.length ++ p.fileName)).drop 12 = p.fileName := by
      rw [← List.append_assoc]
      exact List.drop_left' (by simp [length_beBytes])
    rw [readBE_beBytes _ _ _ hsize, hd12, List.take_length]

/-- Round trip for FileChunk with in-bound data length. -/
theorem fileChunk_roundtrip (p : FileChunk) (hoff : p.offset < 2 ^ 64)
    (hlen : p.data.length ≤ kMaxChunkSize) :
    ∃ bytes, p.serializeTo [] = .ok bytes ∧ FileChunk.deserialize bytes = .ok p := by
  refine ⟨beBytes 8 p.offset ++ (beBytes 4 p.data.length ++ p.data), ?_, ?_⟩
  · unfold FileChunk.serializeTo
    rw [if_neg (by omega), if_neg (by unfold kMaxChunkSize at hlen; omega)]
    simp
  · unfold FileChunk.deserialize
    have hd8 : (beBytes 8 p.offset ++ (beBytes 4 p.data.length ++ p.data)).drop 8 =
        beBytes 4 p.data.length ++ p.data := drop_beBytes_append _ _ _
    have hdataLen : readBE 4 ((beBytes 8 p.offset ++
        (beBytes 4 p.data.length ++ p.data)).drop 8) = p.data.length := by
      rw [hd8, readBE_beBytes _ _ _ (by unfold kMaxChunkSize at hlen; omega)]
    have hLen : (beBytes 8 p.offset ++
        (beBytes 4 p.data.length ++ p.data)).length = 12 + p.data.length := by
      simp [length_beBytes]
      omega
    rw [if_neg (by omega)]
    simp only [hdataLen]
    rw [if_neg (by omega), if_neg (by omega)]
    have hd12 : (beBytes 8 p.offset ++
        (beBytes 4 p.data.length ++ p.data)).drop 12 = p.data := by
      rw [← List.append_assoc]
      exact List.drop_left' (by simp [length_beBytes])
    rw [readBE_beBytes _ _ _ hoff, hd12, List.take_length]

/-- Round trip for FileDone. -/
theorem fileDone_roundtrip (p : FileDone) (hsize : p.fileSize < 2 ^ 64) :
    ∃ bytes, p.serializeTo [] = .ok bytes ∧ FileDone.deserialize bytes = .ok p := by
  refine ⟨beBytes 8 p.fileSize, by simp [FileDone.serializeTo], ?_⟩
  unfold FileDone.deserialize
  rw [if_neg (by simp [length_beBytes])]
  rw [readBE_beBytes_self _ _ hsize]

/-- C3: for every message kind and every valid instance p (fields within
the protocol limits: integer fields within their wire widths, Error
message at most 4096 bytes, FileInfo name non-empty and at most 4096
bytes, FileChunk data at most 10 MiB), deserializing the bytes produced
by serializing p yields exactly p. -/
theorem serialize_deserialize_roundtrip :
    (∀ p : Handshake, p.protocolVersion < 2 ^ 16 → p.capabilities < 2 ^ 32 →
      ∃ bytes, p.serializeTo [] = .ok bytes ∧ Handshake.deserialize bytes = .ok p)
    ∧ (∀ p : Ack, p.offset < 2 ^ 64 →
      ∃ bytes, p.serializeTo [] = .ok bytes ∧ Ack.deserialize bytes = .ok p)
    ∧ (∀ p : ErrorPkt, p.code < 2 ^ 16 → p.message.length ≤ kMaxStringLength →
      ∃ bytes, p.serializeTo [] = .ok bytes ∧ ErrorPkt.deserialize bytes = .ok p)
    ∧ (∀ p : FileInfo, p.fileSize < 2 ^ 64 → 1 ≤ p.fileName.length →
        p.fileName.length ≤ kMaxStringLength →
      ∃ bytes, p.serializeTo [] = .ok bytes ∧ FileInfo.deserialize bytes = .ok p)
    ∧ (∀ p : FileChunk, p.offset < 2 ^ 64 → p.data.length ≤ kMaxChunkSize →
      ∃ bytes, p.serializeTo [] = .ok bytes ∧ FileChunk.deserialize bytes = .ok p)
    ∧ (∀ p : FileDone, p.fileSize < 2 ^ 64 →
      ∃ bytes, p.serializeTo [] = .ok bytes ∧ FileDone.deserialize bytes = .ok p) :=
  ⟨handshake_roundtrip, ack_roundtrip, errorPkt_roundtrip, fileInfo_roundtrip,
   fileChunk_roundtrip, fileDone_roundtrip⟩

/-- Witness for C3: the round trip evaluated for one concrete valid
packet of each kind. -/
theorem serialize_deserialize_roundtrip_witness :
    (∃ bytes, Handshake.serializeTo { protocolVersion := 1, capabilities := 0 } [] = .ok bytes ∧
      Handshake.deserialize bytes = .ok { protocolVersion := 1, capabilities := 0 })
    ∧ (∃ bytes, Ack.serializeTo { offset := 5 } [] = .ok bytes ∧
      Ack.deserialize bytes = .ok { offset := 5 })
    ∧ (∃ bytes, ErrorPkt.serializeTo { code := 2, message := [104, 105] } [] = .ok bytes ∧
      ErrorPkt.deserialize bytes = .ok { code := 2, message := [104, 105] })
    ∧ (∃ bytes, FileInfo.serializeTo { fileSize := 3, fileName := [97] } [] = .ok bytes ∧
      FileInfo.deserialize bytes = .ok { fileSize := 3, fileName := [97] })
    ∧ (∃ bytes, FileChunk.serializeTo { offset := 0, data := [1, 2, 3] } [] = .ok bytes ∧
      FileChunk.deserialize bytes = .ok { offset := 0, data := [1, 2, 3] })
    ∧ (∃ bytes, FileDone.serializeTo { fileSize := 3 } [] = .ok bytes ∧
      FileDone.deserialize bytes = .ok { fileSize := 3 }) :=
  ⟨serialize_deserialize_roundtrip.1 _ (by decide) (by decide),
   serialize_deserialize_roundtrip.2.1 _ (by decide),
   serialize_deserialize_roundtrip.2.2.1 _ (by decide) (by decide),
   serialize_deserialize_roundtrip.2.2.2.1 _ (by decide) (by decide) (by decide),
   serialize_deserialize_roundtrip.2.2.2.2.1 _ (by decide) (by decide),
   serialize_deserialize_roundtrip.2.2.2.2.2 _ (by decide)⟩

/-- C6: serializing a message whose declared-length field exceeds its
kind maximum (4096 for FileInfo names and Error messages, 10 MiB for
FileChunk data) fails leaving the output buffer exactly as it was, and
deserializing a payload that declares a length over the maximum fails
with the too-long error; length exactly 4096 succeeds on both sides
(4097 and above are covered by the failure parts). -/
theorem length_limit_boundaries :
    (∀ (p : FileInfo) (out : List Nat), p.fileName.length > kMaxStringLength →
      p.serializeTo out = .error (.tooLong, out))
    ∧ (∀ (p : ErrorPkt) (out : List Nat), p.message.length > kMaxStringLength →
      p.serializeTo out = .error (.tooLong, out))
    ∧ (∀ (p : FileChunk) (out : List Nat), p.data.length > kMaxChunkSize →
      p.serializeTo out = .error (.tooLong, out))
    ∧ (∀ (sz L : Nat) (rest : List Nat), kMaxStringLength < L → L < 2 ^ 32 →
      FileInfo.deserialize (beBytes 8 sz ++ (beBytes 4 L ++ rest)) = .error .tooLong)
    ∧ (∀ (c L : Nat) (rest : List Nat), kMaxStringLength < L → L < 2 ^ 32 →
      ErrorPkt.deserialize (beBytes 2 c ++ (beBytes 4 L ++ rest)) = .error .tooLong)
    ∧ (∀ (off L : Nat) (rest : List Nat), kMaxChunkSize < L → L < 2 ^ 32 →
      FileChunk.deserialize (beBytes 8 off ++ (beBytes 4 L ++ rest)) = .error .tooLong)
    ∧ (∀ p : FileInfo, p.fileSize < 2 ^ 64 → p.fileName.length = 4096 →
      ∃ bytes, p.serializeTo [] = .ok bytes ∧ FileInfo.deserialize bytes = .ok p)
    ∧ (∀ p : ErrorPkt, p.code < 2 ^ 16 → p.message.length = 4096 →
      ∃ bytes, p.serializeTo [] = .ok bytes ∧ ErrorPkt.deserialize bytes = .ok p) := by
  refine ⟨?_, ?_, ?_, ?_, ?_, ?_, ?_, ?_⟩
  · intro p out h
    unfold FileInfo.serializeTo
    rw [if_neg (by omega), if_pos (by omega)]
  · intro p out h
    unfold ErrorPkt.serializeTo
    rw [if_pos (by omega)]
  · intro p out h
    unfold FileChunk.serializeTo
    rw [if_pos (by omega)]
  · intro sz L rest hL hL32
    unfold FileInfo.deserialize
    rw [if_neg (by simp [length_beBytes]; omega)]
    have hd : (beBytes 8 sz ++ (beBytes 4 L ++ rest)).drop 8 = beBytes 4 L ++ rest :=
      drop_beBytes_append _ _ _
    simp only [hd, readBE_beBytes _ _ _ (show L < 256 ^ 4 by omega)]
    rw [if_pos (by omega)]
  · intro c L rest hL hL32
    unfold ErrorPkt.deserialize
    rw [if_neg (by simp [length_beBytes]; omega)]
    have hd : (beBytes 2 c ++ (beBytes 4 L ++ rest)).drop 2 = beBytes 4 L ++ rest :=
      drop_beBytes_append _ _ _
    simp only [hd, readBE_beBytes _ _ _ (show L < 256 ^ 4 by omega)]
    rw [if_pos (by omega)]
  · intro off L rest hL hL32
    unfold FileChunk.deserialize
    rw [if_neg (by simp [length_beBytes]; omega)]
    have hd : (beBytes 8 off ++ (beBytes 4 L ++ rest)).drop 8 = beBytes 4 L ++ rest :=
      drop_beBytes_append _ _ _
    simp only [hd, readBE_beBytes _ _ _ (show L < 256 ^ 4 by omega)]
    rw [if_pos (by omega)]
  · intro p hsize hlen
    exact fileInfo_roundtrip p hsize (by omega) (by unfold kMaxStringLength; omega)
  · intro p hcode hlen
    exact errorPkt_roundtrip p hcode (by unfold kMaxStringLength; omega)

/-- Witness for C6: each part evaluated at a concrete boundary input
(4097-byte name/message, an oversize chunk, declared lengths 4097 and
10 MiB + 1, and exact-4096 successes). -/
theorem length_limit_boundaries_witness :
    (FileInfo.serializeTo { fileSize := 1, fileName := List.replicate 4097 97 } [] =
      .error (.tooLong, []))
    ∧ (ErrorPkt.serializeTo { code := 0, message := List.replicate 4097 98 } [] =
      .error (.tooLong, []))
    ∧ (FileChunk.serializeTo { offset := 0, data := List.replicate (kMaxChunkSize + 1) 0 } [] =
      .error (.tooLong, []))
    ∧ (FileInfo.deserialize (beBytes 8 7 ++ (beBytes 4 4097 ++ [])) = .error .tooLong)
    ∧ (ErrorPkt.deserialize (beBytes 2 1 ++ (beBytes 4 4097 ++ [])) = .error .tooLong)
    ∧ (FileChunk.deserialize (beBytes 8 0 ++ (beBytes 4 (kMaxChunkSize + 1) ++ [])) =
      .error .tooLong)
    ∧ (∃ bytes, FileInfo.serializeTo { fileSize := 9, fileName := List.replicate 4096 97 } [] =
        .ok bytes ∧
      FileInfo.deserialize bytes = .ok { fileSize := 9, fileName := List.replicate 4096 97 })
    ∧ (∃ bytes, ErrorPkt.serializeTo { code := 3, message := List.replicate 4096 98 } [] =
        .ok bytes ∧
      ErrorPkt.deserialize bytes = .ok { code := 3, message := List.replicate 4096 98 }) :=
  ⟨length_limit_boundaries.1 _ [] (by norm_num [kMaxStringLength]),
   length_limit_boundaries.2.1 _ [] (by norm_num [kMaxStringLength]),
   length_limit_boundaries.2.2.1 _ [] (by norm_num),
   length_limit_boundaries.2.2.2.1 7 4097 [] (by norm_num [kMaxStringLength]) (by norm_num),
   length_limit_boundaries.2.2.2.2.1 1 4097 [] (by norm_num [kMaxStringLength]) (by norm_num),
   length_limit_boundaries.2.2.2.2.2.1 0 (kMaxChunkSize + 1) [] (by omega)
     (by norm_num [kMaxChunkSize]),
   length_limit_boundaries.2.2.2.2.2.2.1 _ (by norm_num) (by norm_num),
   length_limit_boundaries.2.2.2.2.2.2.2 _ (by norm_num) (by norm_num)⟩

/-- Serializing onto any prior buffer appends the same bytes serializing
onto the empty buffer produces. -/
theorem serializeTo_shift (p : Packet) (out bytes : List Nat)
    (h : p.serializeTo [] = .ok bytes) : p.serializeTo out = .ok (out ++ bytes) := by
  cases p <;>
    simp only [Packet.serializeTo, Handshake.serializeTo, Ack.serializeTo,
      ErrorPkt.serializeTo, FileInfo.serializeTo, FileChunk.serializeTo,
      FileDone.serializeTo] at h ⊢ <;>
    (try split_ifs at h ⊢) <;>
    simp_all [List.append_assoc]

/-- A successful serialization appends exactly payloadSize bytes. -/
theorem serialize_ok_length (p : Packet) (bytes : List Nat)
    (h : p.serializeTo [] = .ok bytes) : bytes.length = p.payloadSize := by
  cases p <;>
    simp only [Packet.serializeTo, Handshake.serializeTo, Ack.serializeTo,
      ErrorPkt.serializeTo, FileInfo.serializeTo, FileChunk.serializeTo,
      FileDone.serializeTo] at h <;>
    (try split_ifs at h) <;>
    (try simp_all [Packet.payloadSize, Handshake.payloadSize, Ack.payloadSize,
      ErrorPkt.payloadSize, FileInfo.payloadSize, FileChunk.payloadSize,
      FileDone.payloadSize]) <;>
    (try (rw [← h]; simp [length_beBytes])) <;>
    (try omega)

/-- C8: for every valid packet p, buildFrame returns a buffer of exactly
10 + payloadSize(p) bytes: the 8-byte big-endian payload size, the 2-byte
big-endian kind code, then exactly the payloadSize(p) bytes that
p.serialize appends; a Handshake has a 6-byte payload and a 16-byte
frame. -/
theorem buildFrame_wire_layout :
    (∀ p : Packet, p.valid →
      ∃ payload, p.serializeTo [] = .ok payload ∧ payload.length = p.payloadSize ∧
        buildFrame p = .ok ((beBytes 8 p.payloadSize ++ beBytes 2 p.typeCode) ++ payload))
    ∧ (∀ p : Packet, p.valid → ∀ bytes, buildFrame p = .ok bytes →
        bytes.length = kFrameHeaderSize + p.payloadSize)
    ∧ (∀ h : Handshake, (Packet.handshake h).payloadSize = 6)
    ∧ (∀ (h : Handshake) (bytes : List Nat), buildFrame (.handshake h) = .ok bytes →
        bytes.length = 16) := by
  have main : ∀ p : Packet, p.valid →
      ∃ payload, p.serializeTo [] = .ok payload ∧ payload.length = p.payloadSize ∧
        buildFrame p = .ok ((beBytes 8 p.payloadSize ++ beBytes 2 p.typeCode) ++ payload) := by
    intro p hv
    have hser : ∃ payload, p.serializeTo [] = .ok payload := by
      cases p with
      | handshake q => exact ⟨_, (handshake_roundtrip q hv.1 hv.2).choose_spec.1⟩
      | ack q => exact ⟨_, (ack_roundtrip q hv).choose_spec.1⟩
      | error q => exact ⟨_, (errorPkt_roundtrip q hv.1 hv.2).choose_spec.1⟩
      | fileInfo q => exact ⟨_, (fileInfo_roundtrip q hv.1 hv.2.1 hv.2.2).choose_spec.1⟩
      | fileChunk q => exact ⟨_, (fileChunk_roundtrip q hv.1 hv.2).choose_spec.1⟩
      | fileDone q => exact ⟨_, (fileDone_roundtrip q hv).choose_spec.1⟩
    obtain ⟨payload, hp⟩ := hser
    exact ⟨payload, hp, serialize_ok_length p payload hp,
      serializeTo_shift p _ payload hp⟩
  refine ⟨main, ?_, fun _ => rfl, ?_⟩
  · intro p hv bytes hb
    obtain ⟨payload, _, hlen, hframe⟩ := main p hv
    rw [hb] at hframe
    have : bytes = (beBytes 8 p.payloadSize ++ beBytes 2 p.typeCode) ++ payload := by
      have h2 := hframe.symm
      simpa [List.append_assoc] using h2.symm
    subst this
    simp [length_beBytes, hlen, kFrameHeaderSize]
    omega
  · intro h bytes hb
    simp only [buildFrame, Packet.serializeTo, Handshake.serializeTo,
      Except.ok.injEq] at hb
    subst hb
    simp [length_beBytes]

/-- Witness for C8: the layout evaluated for a concrete valid Ack and a
concrete Handshake. -/
theorem buildFrame_wire_layout_witness :
    (∃ payload, (Packet.ack { offset := 7 }).serializeTo [] = .ok payload ∧
      payload.length = (Packet.ack { offset := 7 }).payloadSize ∧
      buildFrame (.ack { offset := 7 }) =
        .ok ((beBytes 8 (Packet.ack { offset := 7 }).payloadSize ++
          beBytes 2 (Packet.ack { offset := 7 }).typeCode) ++ payload))
    ∧ (Packet.handshake { protocolVersion := 1, capabilities := 0 }).payloadSize = 6
    ∧ (∀ bytes, buildFrame (.handshake { protocolVersion := 1, capabilities := 0 }) =
        .ok bytes → bytes.length = 16) :=
  ⟨buildFrame_wire_layout.1 (.ack { offset := 7 }) (by norm_num [Packet.valid]),
   buildFrame_wire_layout.2.2.1 { protocolVersion := 1, capabilities := 0 },
   fun bytes hb => buildFrame_wire_layout.2.2.2 _ bytes hb⟩

/-- A successful beginFile leaves the writer open with bytes_written
reset to zero. -/
theorem beginFile_ok_state (env : FsEnv) (w w₀ : FileWriter) (rel : List Nat)
    (size : Nat) (h : FileWriter.beginFile env w rel size = (w₀, none)) :
    w₀.isOpen = true ∧ w₀.bytesWritten = 0 := by
  unfold FileWriter.beginFile at h
  by_cases h1 : ¬isPathSafe (pathAppend (FileWriter.close w).baseDir (parsePath rel))
      (FileWriter.close w).baseDir env
  · rw [if_pos h1] at h
    exact absurd (congrArg Prod.snd h) (by simp)
  · rw [if_neg h1] at h
    by_cases h2 : (pathAppend (FileWriter.close w).baseDir (parsePath rel)).hasParent ∧
        ¬env.createDirsOk
    · rw [if_pos h2] at h
      exact absurd (congrArg Prod.snd h) (by simp)
    · rw [if_neg h2] at h
      by_cases h3 : ¬env.openOk
      · rw [if_pos h3] at h
        exact absurd (congrArg Prod.snd h) (by simp)
      · rw [if_neg h3] at h
        rw [Prod.mk.injEq] at h
        obtain ⟨h4, -⟩ := h
        subst h4
        exact ⟨rfl, rfl⟩

/-- Folding writeChunk over an open writer keeps it open and accumulates
the chunk data lengths modulo 2^64 (the uint64_t counter), whatever the
offsets are. -/
theorem writeChunk_foldl (chunks : List (Nat × List Nat)) :
    ∀ w : FileWriter, w.isOpen = true → w.bytesWritten < 2 ^ 64 →
      (chunks.foldl (fun acc c => (acc.writeChunk c.1 c.2).1) w).isOpen = true ∧
      (chunks.foldl (fun acc c => (acc.writeChunk c.1 c.2).1) w).bytesWritten =
        (w.bytesWritten + (chunks.map (fun c => c.2.length)).sum) % 2 ^ 64 := by
  induction chunks with
  | nil =>
    intro w h hlt
    refine ⟨h, ?_⟩
    simp only [List.map_nil, List.sum_nil, Nat.add_zero, List.foldl_nil]
    omega
  | cons c cs ih =>
    intro w h hlt
    simp only [List.foldl_cons, List.map_cons, List.sum_cons]
    have hw : (w.writeChunk c.1 c.2).1 =
        { w with bytesWritten := (w.bytesWritten + c.2.length) % 2 ^ 64 } := by
      unfold FileWriter.writeChunk
      rw [if_neg (by simp [h])]
    rw [hw]
    obtain ⟨h1, h2⟩ :=
      ih { w with bytesWritten := (w.bytesWritten + c.2.length) % 2 ^ 64 } h
        (Nat.mod_lt _ (by norm_num))
    refine ⟨h1, ?_⟩
    rw [h2]
    simp only [Nat.mod_add_mod]
    omega

/-- C7: after a successful begin_file, bytes_written equals the sum of
the data lengths of all write_chunk calls made since then — for every
total within the range of the uint64_t counter — regardless of chunk
offsets or ordering (a running sum, not a high-water mark), and
finish_file(final_size) returns the boolean bytes_written == final_size
and closes the handle regardless of the verdict. -/
theorem bytesWritten_running_sum (env : FsEnv) (w w₀ : FileWriter)
    (rel : List Nat) (size : Nat)
    (h : FileWriter.beginFile env w rel size = (w₀, none))
    (chunks : List (Nat × List Nat))
    (hsum : (chunks.map (fun c => c.2.length)).sum < 2 ^ 64) :
    (chunks.foldl (fun acc c => (acc.writeChunk c.1 c.2).1) w₀).bytesWritten =
      (chunks.map (fun c => c.2.length)).sum
    ∧ (∀ finalSize : Nat,
        ((chunks.foldl (fun acc c => (acc.writeChunk c.1 c.2).1) w₀).finishFile
            finalSize).2 =
          ((chunks.map (fun c => c.2.length)).sum == finalSize)
        ∧ ((chunks.foldl (fun acc c => (acc.writeChunk c.1 c.2).1) w₀).finishFile
            finalSize).1.isOpen = false) := by
  obtain ⟨hopen, hzero⟩ := beginFile_ok_state env w w₀ rel size h
  obtain ⟨hopenN, hmod⟩ := writeChunk_foldl chunks w₀ hopen (by omega)
  have hsum0 : (chunks.foldl (fun acc c => (acc.writeChunk c.1 c.2).1) w₀).bytesWritten =
      (chunks.map (fun c => c.2.length)).sum := by
    rw [hmod, hzero, Nat.zero_add, Nat.mod_eq_of_lt hsum]
  refine ⟨hsum0, fun finalSize => ⟨?_, ?_⟩⟩
  · unfold FileWriter.finishFile
    rw [hsum0]
  · unfold FileWriter.finishFile FileWriter.close
    rfl

/-- Witness for C7: a successful begin_file in a concrete environment
followed by two out-of-order chunks of lengths 3 and 2. -/
theorem bytesWritten_running_sum_witness :
    (([(5, [1, 2, 3]), (0, [4, 5])] : List (Nat × List Nat)).foldl
        (fun acc c => (acc.writeChunk c.1 c.2).1)
        ({ baseDir := ⟨true, [[100]]⟩, isOpen := true, expectedSize := 9,
           bytesWritten := 0 } : FileWriter)).bytesWritten =
      (([(5, [1, 2, 3]), (0, [4, 5])] : List (Nat × List Nat)).map
        (fun c => c.2.length)).sum
    ∧ (∀ finalSize : Nat,
        ((([(5, [1, 2, 3]), (0, [4, 5])] : List (Nat × List Nat)).foldl
            (fun acc c => (acc.writeChunk c.1 c.2).1)
            ({ baseDir := ⟨true, [[100]]⟩, isOpen := true, expectedSize := 9,
               bytesWritten := 0 } : FileWriter)).finishFile finalSize).2 =
          ((([(5, [1, 2, 3]), (0, [4, 5])] : List (Nat × List Nat)).map
            (fun c => c.2.length)).sum == finalSize)
        ∧ ((([(5, [1, 2, 3]), (0, [4, 5])] : List (Nat × List Nat)).foldl
            (fun acc c => (acc.writeChunk c.1 c.2).1)
            ({ baseDir := ⟨true, [[100]]⟩, isOpen := true, expectedSize := 9,
               bytesWritten := 0 } : FileWriter)).finishFile finalSize).1.isOpen = false) :=
  bytesWritten_running_sum
    { cwd := ⟨true, [[100]]⟩, baseExists := true, createDirsOk := true, openOk := true }
    { baseDir := ⟨true, [[100]]⟩ }
    { baseDir := ⟨true, [[100]]⟩, isOpen := true, expectedSize := 9, bytesWritten := 0 }
    [102] 9 (by decide) [(5, [1, 2, 3]), (0, [4, 5])] (by norm_num)

/-- Reduction of onPacket on a FileDone frame with decodable payload. -/
theorem onPacket_fileDone (env : FsEnv) (rcv : ReceiverState) (w : FileWriter)
    (frame : ParsedFrame) (pkt : FileDone)
    (htype : frame.type = fileDoneCode)
    (hdes : FileDone.deserialize frame.payload = .ok pkt) :
    FileReceiver.onPacket env rcv w frame =
      if rcv.rejected then .ok ⟨rcv, w, [], []⟩
      else .ok ⟨rcv, (w.finishFile pkt.fileSize).1,
        [.finishedFile pkt.fileSize (w.finishFile pkt.fileSize).2],
        if (w.finishFile pkt.fileSize).2 ∧ rcv.hasAckCallback then
          [{ offset := pkt.fileSize }] else []⟩ := by
  unfold FileReceiver.onPacket
  rw [htype]
  rw [if_neg (by decide), if_neg (by decide), if_neg (by decide),
    if_neg (by decide), if_pos (by decide), hdes]
  rfl

/-- Reduction of onPacket on a FileChunk frame while rejected: ignored
before any deserialization or writer call. -/
theorem onPacket_fileChunk_rejected (env : FsEnv) (rcv : ReceiverState)
    (w : FileWriter) (frame : ParsedFrame)
    (htype : frame.type = fileChunkCode) (hrej : rcv.rejected = true) :
    FileReceiver.onPacket env rcv w frame = .ok ⟨rcv, w, [], []⟩ := by
  unfold FileReceiver.onPacket
  rw [htype]
  rw [if_neg (by decide), if_neg (by decide), if_neg (by decide),
    if_pos (by decide), if_pos hrej]

/-- Reduction of onPacket on a FileChunk frame while not rejected. -/
theorem onPacket_fileChunk_ok (env : FsEnv) (rcv : ReceiverState)
    (w : FileWriter) (frame : ParsedFrame) (pkt : FileChunk)
    (htype : frame.type = fileChunkCode) (hrej : rcv.rejected = false)
    (hdes : FileChunk.deserialize frame.payload = .ok pkt) :
    FileReceiver.onPacket env rcv w frame =
      .ok ⟨rcv, (w.writeChunk pkt.offset pkt.data).1,
        [.wroteChunk pkt.offset pkt.data (w.writeChunk pkt.offset pkt.data).2],
        []⟩ := by
  unfold FileReceiver.onPacket
  rw [htype]
  rw [if_neg (by decide), if_neg (by decide), if_neg (by decide),
    if_pos (by decide), if_neg (by simp [hrej]), hdes]
  rfl

/-- C4: on a FileDone event the receiver emits an Ack exactly when the
current file was not rejected and writer.finish_file(file_size) returned
true, and the emitted Ack carries offset equal to the declared file_size;
in the Rejected state a FileChunk event is ignored without any writer
call and a FileDone event produces no ack and no writer call. -/
theorem receiver_ack_policy (env : FsEnv) (rcv : ReceiverState) (w : FileWriter)
    (payload : List Nat) (pkt : FileDone)
    (hcb : rcv.hasAckCallback = true)
    (hdes : FileDone.deserialize payload = .ok pkt) :
    (∃ step, FileReceiver.onPacket env rcv w ⟨payload, fileDoneCode⟩ = .ok step
      ∧ ((step.acks ≠ []) ↔
          (rcv.rejected = false ∧ (w.finishFile pkt.fileSize).2 = true))
      ∧ (∀ a ∈ step.acks, a.offset = pkt.fileSize)
      ∧ (rcv.rejected = true →
          step.acks = [] ∧ step.writerTrace = [] ∧ step.writer = w))
    ∧ (∀ chunkPayload : List Nat, rcv.rejected = true →
        FileReceiver.onPacket env rcv w ⟨chunkPayload, fileChunkCode⟩ =
          .ok ⟨rcv, w, [], []⟩) := by
  have hred := onPacket_fileDone env rcv w ⟨payload, fileDoneCode⟩ pkt rfl hdes
  constructor
  · by_cases hrej : rcv.rejected
    · rw [hred, if_pos hrej]
      exact ⟨⟨rcv, w, [], []⟩, rfl, by simp [hrej], by simp, fun _ => ⟨rfl, rfl, rfl⟩⟩
    · rw [hred, if_neg hrej]
      refine ⟨_, rfl, ?_, ?_, ?_⟩
      · by_cases hv : (w.finishFile pkt.fileSize).2 = true
        · simp only [hv, hcb]
          simp [Bool.not_eq_true] at hrej
          simp [hrej]
        · simp [Bool.not_eq_true] at hv
          simp [hv]
      · intro a ha
        by_cases hv : (w.finishFile pkt.fileSize).2 = true
        · simp [hv, hcb] at ha
          simp [ha]
        · simp [Bool.not_eq_true] at hv
          simp [hv] at ha
      · intro hcontra
        exact absurd hcontra hrej
  · intro chunkPayload hrej
    exact onPacket_fileChunk_rejected env rcv w ⟨chunkPayload, fileChunkCode⟩ rfl hrej

/-- Witness for C4: a concrete never-rejected receiver with the callback
installed and a writer holding three written bytes, fed a FileDone
declaring three bytes. -/
theorem receiver_ack_policy_witness :
    (∃ step, FileReceiver.onPacket
        { cwd := ⟨true, [[100]]⟩, baseExists := true }
        { rejected := false, hasAckCallback := true }
        { baseDir := ⟨true, [[100]]⟩, isOpen := true, expectedSize := 3,
          bytesWritten := 3 }
        ⟨beBytes 8 3, fileDoneCode⟩ = .ok step
      ∧ ((step.acks ≠ []) ↔
          (({ rejected := false, hasAckCallback := true } : ReceiverState).rejected = false
            ∧ (FileWriter.finishFile
                { baseDir := ⟨true, [[100]]⟩, isOpen := true, expectedSize := 3,
                  bytesWritten := 3 } (3 : Nat)).2 = true))
      ∧ (∀ a ∈ step.acks, a.offset = (3 : Nat))
      ∧ (({ rejected := false, hasAckCallback := true } : ReceiverState).rejected = true →
          step.acks = [] ∧ step.writerTrace = [] ∧ step.writer =
            { baseDir := ⟨true, [[100]]⟩, isOpen := true, expectedSize := 3,
              bytesWritten := 3 }))
    ∧ (∀ chunkPayload : List Nat,
        ({ rejected := false, hasAckCallback := true } : ReceiverState).rejected = true →
        FileReceiver.onPacket
          { cwd := ⟨true, [[100]]⟩, baseExists := true }
          { rejected := false, hasAckCallback := true }
          { baseDir := ⟨true, [[100]]⟩, isOpen := true, expectedSize := 3,
            bytesWritten := 3 }
          ⟨chunkPayload, fileChunkCode⟩ =
          .ok ⟨{ rejected := false, hasAckCallback := true },
            { baseDir := ⟨true, [[100]]⟩, isOpen := true, expectedSize := 3,
              bytesWritten := 3 }, [], []⟩) :=
  receiver_ack_policy
    { cwd := ⟨true, [[100]]⟩, baseExists := true }
    { rejected := false, hasAckCallback := true }
    { baseDir := ⟨true, [[100]]⟩, isOpen := true, expectedSize := 3, bytesWritten := 3 }
    (beBytes 8 3) { fileSize := 3 } rfl (by rfl)

/-- C10: a freshly constructed receiver (never rejected) whose writer has
never opened a file still forwards the first valid FileChunk to
writer.write_chunk, which reports NotOpen; the error is only logged, the
event method returns normally (no exception), the rejected flag stays
false and bytes_written stays 0. -/
theorem fresh_receiver_chunk_notOpen (env : FsEnv) (base : FsPath) (cb : Bool)
    (payload : List Nat) (pkt : FileChunk)
    (hdes : FileChunk.deserialize payload = .ok pkt) :
    FileReceiver.onPacket env ⟨false, cb⟩ ⟨base, false, 0, 0⟩ ⟨payload, fileChunkCode⟩ =
      .ok ⟨⟨false, cb⟩, ⟨base, false, 0, 0⟩,
        [.wroteChunk pkt.offset pkt.data (some .notOpen)], []⟩ := by
  rw [onPacket_fileChunk_ok env ⟨false, cb⟩ ⟨base, false, 0, 0⟩
    ⟨payload, fileChunkCode⟩ pkt rfl rfl hdes]
  rfl

/-- Witness for C10: a fresh receiver over base directory /d fed one
valid single-byte chunk at offset 0. -/
theorem fresh_receiver_chunk_notOpen_witness :
    FileReceiver.onPacket
      { cwd := ⟨true, [[100]]⟩, baseExists := true }
      ⟨false, true⟩ ⟨⟨true, [[100]]⟩, false, 0, 0⟩
      ⟨beBytes 8 0 ++ (beBytes 4 1 ++ [7]), fileChunkCode⟩ =
      .ok ⟨⟨false, true⟩, ⟨⟨true, [[100]]⟩, false, 0, 0⟩,
        [.wroteChunk 0 [7] (some .notOpen)], []⟩ :=
  fresh_receiver_chunk_notOpen
    { cwd := ⟨true, [[100]]⟩, baseExists := true }
    ⟨true, [[100]]⟩ true (beBytes 8 0 ++ (beBytes 4 1 ++ [7]))
    { offset := 0, data := [7] } (by rfl)

/-- C9: bytes_written survives finish_file and close (it is reset only by
begin_file); consequently a receiver that has just acknowledged a
successful transfer of S bytes, when fed a second FileDone declaring the
same S with no intervening FileInfo, calls finish_file against the stale
counter, gets true again, and emits a duplicate Ack with offset S. -/
theorem stale_bytesWritten_duplicate_ack (env : FsEnv) (payload : List Nat)
    (S : Nat) (w : FileWriter)
    (hdes : FileDone.deserialize payload = .ok ⟨S⟩)
    (hbw : w.bytesWritten = S) :
    (∀ (w' : FileWriter) (f : Nat),
      ((w'.finishFile f).1).bytesWritten = w'.bytesWritten)
    ∧ (∀ w' : FileWriter, (FileWriter.close w').bytesWritten = w'.bytesWritten)
    ∧ (∀ (env' : FsEnv) (w0 w1 : FileWriter) (rel : List Nat) (sz : Nat),
        FileWriter.beginFile env' w0 rel sz = (w1, none) → w1.bytesWritten = 0)
    ∧ ∃ step1,
        FileReceiver.onPacket env ⟨false, true⟩ w ⟨payload, fileDoneCode⟩ = .ok step1
        ∧ step1.acks = [⟨S⟩]
        ∧ ∃ step2,
            FileReceiver.onPacket env step1.rcv step1.writer
              ⟨payload, fileDoneCode⟩ = .ok step2
            ∧ step2.acks = [⟨S⟩] := by
  refine ⟨fun w' f => rfl, fun w' => rfl,
    fun env' w0 w1 rel sz h => (beginFile_ok_state env' w0 w1 rel sz h).2, ?_⟩
  have hfin : (w.finishFile S).2 = true := by
    simp [FileWriter.finishFile, hbw]
  have hfin2 : (((w.finishFile S).1).finishFile S).2 = true := by
    simp [FileWriter.finishFile, FileWriter.close, hbw]
  have hred := onPacket_fileDone env ⟨false, true⟩ w ⟨payload, fileDoneCode⟩ ⟨S⟩ rfl hdes
  have hred2 := onPacket_fileDone env ⟨false, true⟩ (w.finishFile S).1
    ⟨payload, fileDoneCode⟩ ⟨S⟩ rfl hdes
  refine ⟨⟨⟨false, true⟩, (w.finishFile S).1,
    [.finishedFile S (w.finishFile S).2], [⟨S⟩]⟩, ?_, rfl, ?_⟩
  · rw [hred, if_neg (by simp)]
    simp [hfin]
  · refine ⟨⟨⟨false, true⟩, (((w.finishFile S).1).finishFile S).1,
      [.finishedFile S (((w.finishFile S).1).finishFile S).2], [⟨S⟩]⟩, ?_, rfl⟩
    show FileReceiver.onPacket env ⟨false, true⟩ (w.finishFile S).1
      ⟨payload, fileDoneCode⟩ = _
    rw [hred2, if_neg (by simp)]
    simp [hfin2]

/-- Witness for C9: a writer already closed by a successful two-byte
transfer, fed the same FileDone twice, acknowledges twice. -/
theorem stale_bytesWritten_duplicate_ack_witness :
    (∀ (w' : FileWriter) (f : Nat),
      ((w'.finishFile f).1).bytesWritten = w'.bytesWritten)
    ∧ (∀ w' : FileWriter, (FileWriter.close w').bytesWritten = w'.bytesWritten)
    ∧ (∀ (env' : FsEnv) (w0 w1 : FileWriter) (rel : List Nat) (sz : Nat),
        FileWriter.beginFile env' w0 rel sz = (w1, none) → w1.bytesWritten = 0)
    ∧ ∃ step1,
        FileReceiver.onPacket { cwd := ⟨true, [[100]]⟩, baseExists := true }
          ⟨false, true⟩ ⟨⟨true, [[100]]⟩, false, 2, 2⟩
          ⟨beBytes 8 2, fileDoneCode⟩ = .ok step1
        ∧ step1.acks = [⟨2⟩]
        ∧ ∃ step2,
            FileReceiver.onPacket { cwd := ⟨true, [[100]]⟩, baseExists := true }
              step1.rcv step1.writer ⟨beBytes 8 2, fileDoneCode⟩ = .ok step2
            ∧ step2.acks = [⟨2⟩] :=
  stale_bytesWritten_duplicate_ack
    { cwd := ⟨true, [[100]]⟩, baseExists := true }
    (beBytes 8 2) 2 ⟨⟨true, [[100]]⟩, false, 2, 2⟩ (by rfl) rfl

/-- A successfully parsed legacy frame implies a full header was present. -/
theorem legacyParseFrame_length (buf : List Nat) (view : ParsedFrame)
    (h : legacyParseFrame buf = .ok view) : kFrameHeaderSize ≤ buf.length := by
  unfold legacyParseFrame at h
  split_ifs at h
  omega

/-- The extract loop's accumulator only prepends already-collected
events. -/
theorem processBufferAux_append (fuel : Nat) :
    ∀ (buf : List Nat) (evs : List DispatchEvent),
      processBufferAux fuel buf evs =
        ((processBufferAux fuel buf []).1, evs ++ (processBufferAux fuel buf []).2) := by
  induction fuel with
  | zero => intro buf evs; simp [processBufferAux]
  | succ fuel ih =>
    intro buf evs
    cases hp : legacyParseFrame buf with
    | error e => simp [processBufferAux, hp]
    | ok view =>
      cases hd : dispatchPacket view with
      | error e => simp [processBufferAux, hp, hd]
      | ok ev =>
        simp only [processBufferAux, hp, hd]
        by_cases hrest : (buf.drop (kFrameHeaderSize + view.size)).isEmpty
        · simp [hrest]
        · simp only [hrest, if_false, Bool.false_eq_true, if_neg]
          rw [ih _ (evs ++ [ev]), ih _ ([] ++ [ev])]
          simp

/-- The extract loop's result does not depend on the fuel bound once the
fuel covers the buffer length (each round consumes at least the ten
header bytes). -/
theorem processBufferAux_fuel_eq :
    ∀ (n fuel1 fuel2 : Nat) (buf : List Nat), buf.length ≤ n →
      buf.length ≤ fuel1 → buf.length ≤ fuel2 →
      processBufferAux fuel1 buf [] = processBufferAux fuel2 buf [] := by
  intro n
  induction n with
  | zero =>
    intro fuel1 fuel2 buf hb h1 h2
    have hnil : buf = [] := List.eq_nil_of_length_eq_zero (by omega)
    subst hnil
    cases fuel1 <;> cases fuel2 <;> rfl
  | succ n ih =>
    intro fuel1 fuel2 buf hb h1 h2
    cases fuel1 with
    | zero =>
      have hnil : buf = [] := List.eq_nil_of_length_eq_zero (by omega)
      subst hnil
      cases fuel2 <;> rfl
    | succ f1 =>
      cases fuel2 with
      | zero =>
        have hnil : buf = [] := List.eq_nil_of_length_eq_zero (by omega)
        subst hnil
        rfl
      | succ f2 =>
        cases hp : legacyParseFrame buf with
        | error e => simp [processBufferAux, hp]
        | ok view =>
          cases hd : dispatchPacket view with
          | error e => simp [processBufferAux, hp, hd]
          | ok ev =>
            simp only [processBufferAux, hp, hd]
            by_cases hrest : (buf.drop (kFrameHeaderSize + view.size)).isEmpty
            · simp [hrest]
            · simp only [hrest, if_false, Bool.false_eq_true, if_neg]
              have hhdr := legacyParseFrame_length buf view hp
              have hlen : (buf.drop (kFrameHeaderSize + view.size)).length =
                  buf.length - (kFrameHeaderSize + view.size) := by
                simp
              have hsmall : (buf.drop (kFrameHeaderSize + view.size)).length ≤ n := by
                rw [hlen]
                unfold kFrameHeaderSize at hhdr ⊢
                omega
              rw [processBufferAux_append f1 _ ([] ++ [ev]),
                processBufferAux_append f2 _ ([] ++ [ev]),
                ih f1 f2 _ hsmall
                  (by rw [hlen]; unfold kFrameHeaderSize at hhdr ⊢; omega)
                  (by rw [hlen]; unfold kFrameHeaderSize at hhdr ⊢; omega)]

/-- When dispatching the frontmost frame throws, processBuffer returns
with the buffer untouched and no events: the error is contained (the
session survives) but nothing is consumed. -/
theorem processBuffer_dispatch_error (buf : List Nat) (view : ParsedFrame)
    (e : DecodeError) (hp : legacyParseFrame buf = .ok view)
    (hd : dispatchPacket view = .error e) :
    processBuffer buf = (buf, []) := by
  have hhdr := legacyParseFrame_length buf view hp
  unfold kFrameHeaderSize at hhdr
  obtain ⟨m, hm⟩ : ∃ m, buf.length = m + 1 := ⟨buf.length - 1, by omega⟩
  unfold processBuffer
  rw [hm]
  simp [processBufferAux, hp, hd]

/-- When dispatching the frontmost frame succeeds, processBuffer removes
exactly totalSize bytes and continues on the remainder. -/
theorem processBuffer_dispatch_ok (buf : List Nat) (view : ParsedFrame)
    (ev : DispatchEvent) (hp : legacyParseFrame buf = .ok view)
    (hd : dispatchPacket view = .ok ev) :
    processBuffer buf =
      ((processBuffer (buf.drop view.totalSize)).1,
        ev :: (processBuffer (buf.drop view.totalSize)).2) := by
  have hhdr := legacyParseFrame_length buf view hp
  unfold kFrameHeaderSize at hhdr
  obtain ⟨m, hm⟩ : ∃ m, buf.length = m + 1 := ⟨buf.length - 1, by omega⟩
  unfold processBuffer
  rw [hm]
  have htot : view.totalSize = kFrameHeaderSize + view.size := rfl
  simp only [processBufferAux, hp, hd, htot]
  by_cases hrest : (buf.drop (kFrameHeaderSize + view.size)).isEmpty
  · have hnil : buf.drop (kFrameHeaderSize + view.size) = [] :=
      List.isEmpty_iff.mp hrest
    simp [hrest, hnil, processBufferAux]
  · simp only [hrest, if_false, Bool.false_eq_true, if_neg]
    have hlen : (buf.drop (kFrameHeaderSize + view.size)).length =
        buf.length - (kFrameHeaderSize + view.size) := by
      simp
    rw [processBufferAux_append m _ ([] ++ [ev]),
      processBufferAux_fuel_eq m m (buf.drop (kFrameHeaderSize + view.size)).length _
        (by rw [hlen]; unfold kFrameHeaderSize; omega)
        (by rw [hlen]; unfold kFrameHeaderSize; omega) le_rfl]
    simp

/-- C2 (amended): an error thrown while dispatching one frame is caught
by the same catch clause that handles fragmentation, so the session is
not terminated, but the engine removes no bytes and dispatches nothing
further in that pass: the malformed frame stays at the front of the
incoming buffer (and, being complete, will fail the same way on every
later pass), so the following frames are never processed.  Only when
dispatch succeeds does the loop remove exactly the frame's totalSize
bytes from the front and continue with the next frame. -/
theorem connection_guard_amended :
    (∀ (buf : List Nat) (view : ParsedFrame) (e : DecodeError),
      legacyParseFrame buf = .ok view → dispatchPacket view = .error e →
      processBuffer buf = (buf, []))
    ∧ (∀ (buf : List Nat) (view : ParsedFrame) (ev : DispatchEvent),
      legacyParseFrame buf = .ok view → dispatchPacket view = .ok ev →
      processBuffer buf =
        ((processBuffer (buf.drop view.totalSize)).1,
          ev :: (processBuffer (buf.drop view.totalSize)).2)) :=
  ⟨processBuffer_dispatch_error, processBuffer_dispatch_ok⟩

/-- Counterexample for C2 as stated: a complete 14-byte Ack frame whose
4-byte payload makes Ack::deserialize throw, followed by a complete valid
18-byte Ack frame.  The claim predicts the engine logs the error, erases
the 14 bytes and dispatches the second frame; the code returns with the
buffer unchanged and dispatches nothing, although the second frame alone
would dispatch fine. -/
theorem connection_guard_counterexample :
    processBuffer ((beBytes 8 4 ++ (beBytes 2 5 ++ [0, 0, 0, 0])) ++
        (beBytes 8 8 ++ (beBytes 2 5 ++ beBytes 8 1))) =
      ((beBytes 8 4 ++ (beBytes 2 5 ++ [0, 0, 0, 0])) ++
        (beBytes 8 8 ++ (beBytes 2 5 ++ beBytes 8 1)), [])
    ∧ legacyParseFrame ((beBytes 8 4 ++ (beBytes 2 5 ++ [0, 0, 0, 0])) ++
        (beBytes 8 8 ++ (beBytes 2 5 ++ beBytes 8 1))) =
      .ok ⟨[0, 0, 0, 0], ackCode⟩
    ∧ dispatchPacket ⟨[0, 0, 0, 0], ackCode⟩ = .error .tooSmall
    ∧ (⟨[0, 0, 0, 0], ackCode⟩ : ParsedFrame).totalSize = 14
    ∧ ((beBytes 8 4 ++ (beBytes 2 5 ++ [0, 0, 0, 0])) ++
        (beBytes 8 8 ++ (beBytes 2 5 ++ beBytes 8 1))).drop 14 ≠
      (beBytes 8 4 ++ (beBytes 2 5 ++ [0, 0, 0, 0])) ++
        (beBytes 8 8 ++ (beBytes 2 5 ++ beBytes 8 1))
    ∧ dispatchPacket ⟨beBytes 8 1, ackCode⟩ = .ok (.ack ⟨1⟩) :=
  ⟨by rfl, by rfl, by rfl, by rfl, by decide, by rfl⟩

/-- Witness for the amended C2: both behaviors evaluated on the concrete
frames of the counterexample buffer. -/
theorem connection_guard_amended_witness :
    processBuffer (beBytes 8 4 ++ (beBytes 2 5 ++ [0, 0, 0, 0])) =
      (beBytes 8 4 ++ (beBytes 2 5 ++ [0, 0, 0, 0]), [])
    ∧ processBuffer (beBytes 8 8 ++ (beBytes 2 5 ++ beBytes 8 1)) =
      ((processBuffer ((beBytes 8 8 ++ (beBytes 2 5 ++ beBytes 8 1)).drop
          (⟨beBytes 8 1, ackCode⟩ : ParsedFrame).totalSize)).1,
        DispatchEvent.ack ⟨1⟩ ::
          (processBuffer ((beBytes 8 8 ++ (beBytes 2 5 ++ beBytes 8 1)).drop
            (⟨beBytes 8 1, ackCode⟩ : ParsedFrame).totalSize)).2) :=
  ⟨connection_guard_amended.1 (beBytes 8 4 ++ (beBytes 2 5 ++ [0, 0, 0, 0]))
      ⟨[0, 0, 0, 0], ackCode⟩ .tooSmall (by rfl) (by rfl),
   connection_guard_amended.2 (beBytes 8 8 ++ (beBytes 2 5 ++ beBytes 8 1))
      ⟨beBytes 8 1, ackCode⟩ (.ack ⟨1⟩) (by rfl) (by rfl)⟩

/-- Normalization skips a dot component. -/
theorem normFold_dot (stack rest : List (List Nat)) :
    normFold true stack (dotC :: rest) = normFold true stack rest := by
  simp [normFold]

/-- At an absolute root a dot-dot component is dropped. -/
theorem normFold_dotdot_nil (rest : List (List Nat)) :
    normFold true [] (dotdotC :: rest) = normFold true [] rest := by
  have hne : dotdotC ≠ dotC := by decide
  simp [normFold, hne]

/-- A dot-dot cancels the preceding plain-name component. -/
theorem normFold_dotdot_cons (top : List Nat) (stack' rest : List (List Nat))
    (h : top ≠ dotdotC) :
    normFold true (top :: stack') (dotdotC :: rest) = normFold true stack' rest := by
  have hne : dotdotC ≠ dotC := by decide
  simp [normFold, hne, h]

/-- A plain name is pushed onto the processed stack. -/
theorem normFold_name (c : List Nat) (stack rest : List (List Nat))
    (h1 : c ≠ dotC) (h2 : c ≠ dotdotC) :
    normFold true stack (c :: rest) = normFold true (c :: stack) rest := by
  simp [normFold, h1, h2]

/-- Normalizing an absolute path leaves no dot or dot-dot components. -/
theorem normFold_noDots (comps : List (List Nat)) :
    ∀ stack : List (List Nat), (∀ c ∈ stack, c ≠ dotC ∧ c ≠ dotdotC) →
      ∀ c ∈ normFold true stack comps, c ≠ dotC ∧ c ≠ dotdotC := by
  induction comps with
  | nil =>
    intro stack hstack c hc
    exact hstack c hc
  | cons a rest ih =>
    intro stack hstack c hc
    by_cases h1 : a = dotC
    · subst h1
      rw [normFold_dot] at hc
      exact ih stack hstack c hc
    · by_cases h2 : a = dotdotC
      · subst h2
        cases stack with
        | nil =>
          rw [normFold_dotdot_nil] at hc
          exact ih [] (by simp) c hc
        | cons top stack' =>
          have htop : top ≠ dotdotC := (hstack top (by simp)).2
          rw [normFold_dotdot_cons top stack' rest htop] at hc
          exact ih stack' (fun d hd => hstack d (by simp [hd])) c hc
      · rw [normFold_name a stack rest h1 h2] at hc
        refine ih (a :: stack) ?_ c hc
        intro d hd
        rcases List.mem_cons.mp hd with h | h
        · subst h; exact ⟨h1, h2⟩
        · exact hstack d h

/-- Zeta-reduced form of lexicallyNormal. -/
theorem lexicallyNormal_eq (p : FsPath) :
    lexicallyNormal p =
      if ¬p.absolute = true ∧ (normFold p.absolute [] p.comps).reverse = []
      then ⟨false, [dotC]⟩
      else ⟨p.absolute, (normFold p.absolute [] p.comps).reverse⟩ := rfl

/-- lexically_normal preserves absoluteness. -/
theorem lexicallyNormal_absolute (p : FsPath) :
    (lexicallyNormal p).absolute = p.absolute := by
  rw [lexicallyNormal_eq]
  split_ifs with h
  · obtain ⟨h1, -⟩ := h
    simp [Bool.not_eq_true] at h1
    simp [h1]
  · rfl

/-- The normal form of an absolute path has no dot or dot-dot
components. -/
theorem lexicallyNormal_noDots (p : FsPath) (habs : p.absolute = true) :
    ∀ c ∈ (lexicallyNormal p).comps, c ≠ dotC ∧ c ≠ dotdotC := by
  intro c hc
  rw [lexicallyNormal_eq, if_neg (by simp [habs])] at hc
  simp only [List.mem_reverse] at hc
  rw [habs] at hc
  exact normFold_noDots p.comps [] (by simp) c hc

/-- fs::absolute always yields an absolute path when the current
directory is absolute. -/
theorem fsAbsolute_absolute (env : FsEnv) (p : FsPath)
    (hcwd : env.cwd.absolute = true) : (fsAbsolute env p).absolute = true := by
  unfold fsAbsolute pathAppend
  split_ifs with h
  · exact h
  · exact hcwd

/-- In a dot-free component list the relative-step counters of
lexically_relative are the full length and zero. -/
theorem noDots_filter (bs : List (List Nat))
    (h : ∀ c ∈ bs, c ≠ dotC ∧ c ≠ dotdotC) :
    (bs.filter (fun c => c ≠ dotC ∧ c ≠ dotdotC)).length = bs.length ∧
    (bs.filter (fun c => c = dotdotC)).length = 0 := by
  induction bs with
  | nil => simp
  | cons b rest ih =>
    have hb := h b (by simp)
    have hrest := ih (fun c hc => h c (by simp [hc]))
    constructor
    · rw [List.filter_cons, if_pos (by simp [hb.1, hb.2])]
      simp only [List.length_cons, hrest.1]
    · rw [List.filter_cons, if_neg (by simp [hb.2])]
      exact hrest.2

/-- Zeta-reduced form of lexRelCore. -/
theorem lexRelCore_eq (pr br : List (List Nat)) :
    lexRelCore pr br =
      if pr = [] ∧ br = [] then ⟨false, [dotC]⟩
      else if (br.filter (fun c => c ≠ dotC ∧ c ≠ dotdotC)).length <
          (br.filter (fun c => c = dotdotC)).length then ⟨false, []⟩
      else if (br.filter (fun c => c ≠ dotC ∧ c ≠ dotdotC)).length =
          (br.filter (fun c => c = dotdotC)).length ∧ pr = [] then ⟨false, [dotC]⟩
      else ⟨false, List.replicate
          ((br.filter (fun c => c ≠ dotC ∧ c ≠ dotdotC)).length -
            (br.filter (fun c => c = dotdotC)).length) dotdotC ++ pr⟩ := rfl

/-- lexically_relative never produces an absolute path. -/
theorem lexRelCore_absolute (pr br : List (List Nat)) :
    (lexRelCore pr br).absolute = false := by
  rw [lexRelCore_eq]
  split_ifs <;> rfl

/-- Core characterization: over dot-free component lists, the lexical
relative form is non-empty and free of a leading dot-dot exactly when the
base components are an initial segment of the path components. -/
theorem lexRelCore_dropCommon_safe (as : List (List Nat)) :
    ∀ bs : List (List Nat),
      (∀ c ∈ as, c ≠ dotC ∧ c ≠ dotdotC) → (∀ c ∈ bs, c ≠ dotC ∧ c ≠ dotdotC) →
      ((¬((lexRelCore (dropCommon as bs).1 (dropCommon as bs).2).comps = []) ∧
        ¬((lexRelCore (dropCommon as bs).1 (dropCommon as bs).2).comps.head? =
          some dotdotC))
        ↔ bs = as.take bs.length) := by
  induction as with
  | nil =>
    intro bs has hbs
    cases bs with
    | nil => simp [dropCommon, lexRelCore_eq, dotC, dotdotC]
    | cons b bs' =>
      obtain ⟨hf1, hf2⟩ := noDots_filter (b :: bs') hbs
      have hdc : dropCommon [] (b :: bs') = ([], b :: bs') := rfl
      rw [hdc]
      simp only [lexRelCore_eq]
      rw [if_neg (by simp), if_neg (by rw [hf1, hf2]; omega),
        if_neg (by rw [hf1, hf2]; simp), hf1, hf2]
      simp [List.replicate_succ]
  | cons a as' ih =>
    intro bs has hbs
    cases bs with
    | nil =>
      have ha := has a (by simp)
      have hdc : dropCommon (a :: as') ([] : List (List Nat)) = (a :: as', []) := rfl
      rw [hdc]
      simp only [lexRelCore_eq]
      rw [if_neg (by simp), if_neg (by simp), if_neg (by simp)]
      simp [ha.2]
    | cons b bs' =>
      by_cases hab : a = b
      · subst hab
        have hstep : dropCommon (a :: as') (a :: bs') = dropCommon as' bs' := by
          simp [dropCommon]
        rw [hstep]
        rw [ih bs' (fun c hc => has c (by simp [hc])) (fun c hc => hbs c (by simp [hc]))]
        simp
      · obtain ⟨hf1, hf2⟩ := noDots_filter (b :: bs') hbs
        have hstep : dropCommon (a :: as') (b :: bs') = (a :: as', b :: bs') := by
          simp [dropCommon, hab]
        rw [hstep]
        simp only [lexRelCore_eq]
        rw [if_neg (by simp), if_neg (by rw [hf1, hf2]; omega),
          if_neg (by rw [hf1, hf2]; simp), hf1, hf2]
        constructor
        · rintro ⟨-, hhead⟩
          exfalso
          apply hhead
          simp [List.replicate_succ]
        · intro hcontra
          exfalso
          have hba : b = a := by
            have := congrArg (fun l => l.head?) hcontra
            simpa using this
          exact hab hba.symm

/-- With an existing base, the validator reduces to the three checks on
the lexical relative form. -/
theorem isPathSafe_eq_of_exists (requested base : FsPath) (env : FsEnv)
    (hbe : env.baseExists = true) :
    isPathSafe requested base env =
      (if (lexicallyRelative (lexicallyNormal (fsAbsolute env requested))
            (lexicallyNormal (fsAbsolute env base))).comps = [] then false
       else if (lexicallyRelative (lexicallyNormal (fsAbsolute env requested))
            (lexicallyNormal (fsAbsolute env base))).comps.head? = some dotdotC
         then false
       else if (lexicallyRelative (lexicallyNormal (fsAbsolute env requested))
            (lexicallyNormal (fsAbsolute env base))).absolute = true then false
       else true) := by
  unfold isPathSafe fsCanonical
  rw [if_pos hbe]

/-- Canonicalization failure (missing base) denies. -/
theorem isPathSafe_eq_of_missing (requested base : FsPath) (env : FsEnv)
    (hbe : env.baseExists = false) :
    isPathSafe requested base env = false := by
  unfold isPathSafe fsCanonical
  rw [if_neg (by simp [hbe])]

/-- C1 (amended): isPathSafe resolves requested_path to an absolute path
relative to the process current working directory (fs::absolute), not
relative to base_dir.  Given an absolute current directory, it returns
true exactly when the base directory exists and the canonical base's
components are an initial segment of the lexically normalized CWD-resolved
request — so requests whose CWD-resolved normalized form stays under the
canonical base return true, and every request whose lexical relative form
against the canonical base starts with a '..' component (in particular
absolute paths outside the base) returns false, as does a missing base. -/
theorem isPathSafe_characterization (requested base : FsPath) (env : FsEnv)
    (hcwd : env.cwd.absolute = true) :
    (isPathSafe requested base env = true ↔
      (env.baseExists = true ∧
        (lexicallyNormal (fsAbsolute env base)).comps =
          (lexicallyNormal (fsAbsolute env requested)).comps.take
            (lexicallyNormal (fsAbsolute env base)).comps.length))
    ∧ ((lexicallyRelative (lexicallyNormal (fsAbsolute env requested))
          (lexicallyNormal (fsAbsolute env base))).comps.head? = some dotdotC →
        isPathSafe requested base env = false) := by
  have hBabs : (lexicallyNormal (fsAbsolute env base)).absolute = true := by
    rw [lexicallyNormal_absolute]
    exact fsAbsolute_absolute env base hcwd
  have hnabs : (lexicallyNormal (fsAbsolute env requested)).absolute = true := by
    rw [lexicallyNormal_absolute]
    exact fsAbsolute_absolute env requested hcwd
  have hBnd := lexicallyNormal_noDots (fsAbsolute env base)
    (fsAbsolute_absolute env base hcwd)
  have hnnd := lexicallyNormal_noDots (fsAbsolute env requested)
    (fsAbsolute_absolute env requested hcwd)
  have hrel : lexicallyRelative (lexicallyNormal (fsAbsolute env requested))
      (lexicallyNormal (fsAbsolute env base)) =
      lexRelCore
        (dropCommon (lexicallyNormal (fsAbsolute env requested)).comps
          (lexicallyNormal (fsAbsolute env base)).comps).1
        (dropCommon (lexicallyNormal (fsAbsolute env requested)).comps
          (lexicallyNormal (fsAbsolute env base)).comps).2 := by
    unfold lexicallyRelative
    rw [if_neg (by rw [hnabs, hBabs]; simp)]
  have hchar := lexRelCore_dropCommon_safe
    (lexicallyNormal (fsAbsolute env requested)).comps
    (lexicallyNormal (fsAbsolute env base)).comps hnnd hBnd
  by_cases hbe : env.baseExists = true
  · constructor
    · rw [isPathSafe_eq_of_exists requested base env hbe, hrel]
      constructor
      · intro h
        refine ⟨hbe, ?_⟩
        by_cases h1 : (lexRelCore
            (dropCommon (lexicallyNormal (fsAbsolute env requested)).comps
              (lexicallyNormal (fsAbsolute env base)).comps).1
            (dropCommon (lexicallyNormal (fsAbsolute env requested)).comps
              (lexicallyNormal (fsAbsolute env base)).comps).2).comps = []
        · rw [if_pos h1] at h
          exact absurd h (by simp)
        · rw [if_neg h1] at h
          by_cases h2 : (lexRelCore
              (dropCommon (lexicallyNormal (fsAbsolute env requested)).comps
                (lexicallyNormal (fsAbsolute env base)).comps).1
              (dropCommon (lexicallyNormal (fsAbsolute env requested)).comps
                (lexicallyNormal (fsAbsolute env base)).comps).2).comps.head? =
              some dotdotC
          · rw [if_pos h2] at h
            exact absurd h (by simp)
          · exact hchar.mp ⟨h1, h2⟩
      · rintro ⟨-, htake⟩
        obtain ⟨h1, h2⟩ := hchar.mpr htake
        rw [if_neg h1, if_neg h2, if_neg (by rw [lexRelCore_absolute]; simp)]
    · intro hh
      rw [isPathSafe_eq_of_exists requested base env hbe]
      rw [hrel] at hh ⊢
      by_cases h1 : (lexRelCore
          (dropCommon (lexicallyNormal (fsAbsolute env requested)).comps
            (lexicallyNormal (fsAbsolute env base)).comps).1
          (dropCommon (lexicallyNormal (fsAbsolute env requested)).comps
            (lexicallyNormal (fsAbsolute env base)).comps).2).comps = []
      · rw [if_pos h1]
      · rw [if_neg h1, if_pos hh]
  · have hbe' : env.baseExists = false := by
      simpa [Bool.not_eq_true] using hbe
    constructor
    · rw [isPathSafe_eq_of_missing requested base env hbe']
      simp [hbe']
    · intro _
      exact isPathSafe_eq_of_missing requested base env hbe'

/-- Witness for the amended C1: with current directory /d and base /d,
the absolute request /d/f is accepted, and the head-dot-dot denial holds
at the same instance. -/
theorem isPathSafe_characterization_witness :
    (isPathSafe ⟨true, [[100], [102]]⟩ ⟨true, [[100]]⟩
        { cwd := ⟨true, [[100]]⟩, baseExists := true } = true ↔
      (({ cwd := ⟨true, [[100]]⟩, baseExists := true } : FsEnv).baseExists = true ∧
        (lexicallyNormal (fsAbsolute { cwd := ⟨true, [[100]]⟩, baseExists := true }
            ⟨true, [[100]]⟩)).comps =
          (lexicallyNormal (fsAbsolute { cwd := ⟨true, [[100]]⟩, baseExists := true }
            ⟨true, [[100], [102]]⟩)).comps.take
            (lexicallyNormal (fsAbsolute { cwd := ⟨true, [[100]]⟩, baseExists := true }
              ⟨true, [[100]]⟩)).comps.length))
    ∧ ((lexicallyRelative
          (lexicallyNormal (fsAbsolute { cwd := ⟨true, [[100]]⟩, baseExists := true }
            ⟨true, [[100], [102]]⟩))
          (lexicallyNormal (fsAbsolute { cwd := ⟨true, [[100]]⟩, baseExists := true }
            ⟨true, [[100]]⟩))).comps.head? = some dotdotC →
        isPathSafe ⟨true, [[100], [102]]⟩ ⟨true, [[100]]⟩
          { cwd := ⟨true, [[100]]⟩, baseExists := true } = false) :=
  isPathSafe_characterization ⟨true, [[100], [102]]⟩ ⟨true, [[100]]⟩
    { cwd := ⟨true, [[100]]⟩, baseExists := true } rfl

/-- Counterexample for C1 as stated: with current directory /h and base
directory /d (existing), the relative request "a" stays inside the base
after the spec's base-relative resolution and normalization (its lexical
relative form against the canonical base is exactly "a"), so the claim
requires true, yet isPathSafe resolves against the current directory and
returns false. -/
theorem isPathSafe_counterexample :
    (⟨false, [[97]]⟩ : FsPath).absolute = false
    ∧ lexicallyRelative
        (lexicallyNormal (pathAppend ⟨true, [[100]]⟩ ⟨false, [[97]]⟩))
        (lexicallyNormal (fsAbsolute
          { cwd := ⟨true, [[104]]⟩, baseExists := true } ⟨true, [[100]]⟩)) =
      ⟨false, [[97]]⟩
    ∧ isPathSafeSpec ⟨false, [[97]]⟩ ⟨true, [[100]]⟩
        { cwd := ⟨true, [[104]]⟩, baseExists := true } = true
    ∧ isPathSafe ⟨false, [[97]]⟩ ⟨true, [[100]]⟩
        { cwd := ⟨true, [[104]]⟩, baseExists := true } = false := by
  refine ⟨rfl, by decide, by decide, by decide⟩

end CW
